import Mathlib

/-!
pedsim_simulator, `data_saver.cpp`.

A shallow embedding of the `PedsimData` node of `data_saver.cpp` and the
properties of its per-batch pipeline.

Numbers.  The C++ `double`s are embedded in an arbitrary linearly ordered field
`α` (exact arithmetic: the rationals for running the model, the reals for the
trigonometric facts); where a property depends on the rounding of a `double`
subtraction, the rounding is a function `fl`, and `roundDouble` is the one of
binary64.  The `<cmath>` functions used by the node are a parameter, `Libm α`.
The `int` members `counter_` and `flip_` are integers; `callbackTrackedPersons32`
stores the counter in 32 bits.  The `track_id` of an observation is declared by
the message package, outside this repository, and is a natural number here.
-/

namespace PedsimData

/-- The functions and constants of `<cmath>` that `callbackTrackedPersons`
calls: `atan2`, `sin`, `cos`, `M_PI_4`, `M_PI_2`. -/
structure Libm (α : Type) where
  atan2 : α → α → α
  sin : α → α
  cos : α → α
  M_PI_4 : α
  M_PI_2 : α

/-- The fields of a `spencer_tracking_msgs::TrackedPerson` that the node reads:
`track_id`, `pose.pose.position.{x,y}`, `twist.twist.linear.{x,y}` and
`pose.pose.orientation.{z,w}`. -/
structure TrackedPerson (α : Type) where
  track_id : Nat
  position_x : α
  position_y : α
  linear_x : α
  linear_y : α
  orientation_z : α
  orientation_w : α
deriving DecidableEq

/-- One record inserted into `dataset_`: the ten values streamed between the
commas at lines 302-305 (robot) and 318-321 (other persons), in stream order. -/
structure Row (α : Type) where
  frame : Int
  ped : Nat
  pos_y : α
  pos_x : α
  twist_x : α
  twist_y : α
  or_z : α
  or_w : α
  goal_x : α
  goal_y : α
deriving DecidableEq

/-- The data members of `class PedsimData` that `run`, `inLocalZone`,
`callbackTrackedPersons` and `callbackRobotGoal` read or write.  `dataset_` is
the sequence of records inserted into the output stream so far. -/
structure State (α : Type) where
  robot_position_ : α × α
  robot_goal_ : α × α
  counter_ : Int
  local_width_ : α
  local_height_ : α
  global_width_ : α
  global_height_ : α
  size_ : α
  flip_ : Int
  dataset_ : List (Row α)
deriving DecidableEq

/-- The local variables of `callbackTrackedPersons` that the `switch (flip_)`
of lines 248-301 reads and assigns. -/
structure Ego (α : Type) where
  ego_x : α
  ego_y : α
  vel_x : α
  vel_y : α
  goal_x : α
  goal_y : α
  quat_z : α
  quat_w : α
deriving DecidableEq

section Model

variable {α : Type} [LinearOrderedField α]

/-- The constructor (lines 77-111): position and goal `{0, 0}`, counter `0`;
the remaining members are the parameters read from the parameter server. -/
def init (local_width local_height global_width global_height size : α) (flip : Int) :
    State α :=
  { robot_position_ := (0, 0)
    robot_goal_ := (0, 0)
    counter_ := 0
    local_width_ := local_width
    local_height_ := local_height
    global_width_ := global_width
    global_height_ := global_height
    size_ := size
    flip_ := flip
    dataset_ := [] }

/-- The constructor with the default values of the parameters (lines 90-104):
local zone 12 x 12, global extents 50 x 50, size 100, flip 1. -/
def initDefault : State α := init 12 12 50 50 100 1

/-- Method `PedsimData::inLocalZone` (lines 198-213). -/
def inLocalZone (self : State α) (point : α × α) : Bool :=
  let diff_width := |self.robot_position_.1 - point.1| - self.local_width_ / 2
  let diff_height := |self.robot_position_.2 - point.2| - self.local_height_ / 2
  let dist := max diff_width diff_height
  let r : α := -0.00001
  if dist ≤ r then true else false

/-- The `switch (flip_)` of `callbackTrackedPersons` (lines 248-301); `angle`
is the local computed at line 239.  A value of `flip_` outside 1..4 matches no
case. -/
def flipSwitch (L : Libm α) (flip_ : Int) (angle : α) (e : Ego α) : Ego α :=
  match flip_ with
  | 1 => e
  | 2 =>
    { ego_x := e.ego_y
      ego_y := 1 - e.ego_x
      vel_x := e.vel_y
      vel_y := 1 - e.vel_x
      goal_x := e.goal_y
      goal_y := 1 - e.goal_x
      quat_w := L.cos (angle + L.M_PI_4)
      quat_z := L.sin (angle + L.M_PI_4) }
  | 3 =>
    { ego_x := 1 - e.ego_x
      ego_y := 1 - e.ego_y
      vel_x := 1 - e.vel_x
      vel_y := 1 - e.vel_y
      goal_x := 1 - e.goal_x
      goal_y := 1 - e.goal_y
      quat_w := L.cos (angle + L.M_PI_2)
      quat_z := L.sin (angle + L.M_PI_2) }
  | 4 =>
    { ego_x := 1 - e.ego_y
      ego_y := e.ego_x
      vel_x := 1 - e.vel_y
      vel_y := e.vel_x
      goal_x := 1 - e.goal_y
      goal_y := e.goal_x
      quat_w := L.cos (angle - L.M_PI_4)
      quat_z := L.sin (angle - L.M_PI_4) }
  | _ => e

/-- The body of the `for` loop over `msg->tracks[1..]` (lines 308-322): one
person is tested with `inLocalZone` and, when inside, its record is inserted. -/
def personStep (self : State α) (p : TrackedPerson α) : State α :=
  let person : α × α := (p.position_x, p.position_y)
  let inside := inLocalZone self person
  if inside then
    let pos_x := 2 * p.position_x / self.global_width_ - 1
    let pos_y := 2 * p.position_y / self.global_height_ - 1
    let vel_x := p.linear_x
    let vel_y := p.linear_y
    let vel_x := if vel_x > 10 then vel_x / 1000 else vel_x
    let vel_y := if vel_y > 10 then vel_y / 1000 else vel_y
    { self with
      dataset_ := self.dataset_ ++
        [{ frame := self.counter_, ped := p.track_id + 1, pos_y := pos_y, pos_x := pos_x,
           twist_x := vel_x, twist_y := vel_y,
           or_z := p.orientation_z, or_w := p.orientation_w,
           goal_x := 0, goal_y := 0 }] }
  else self

/-- Method `PedsimData::callbackTrackedPersons` (lines 220-326).  `tracks` is
`msg->tracks`; reading `msg->tracks[0]` of an empty vector has no defined
result, which is `none`. -/
def callbackTrackedPersons (L : Libm α) (self : State α) (tracks : List (TrackedPerson α)) :
    Option (State α) :=
  match tracks with
  | [] => none
  | robot :: rest =>
    let self := { self with robot_position_ := (robot.position_x, robot.position_y) }
    let ego_x := 2 * robot.position_x / self.global_width_ - 1
    let ego_y := 2 * robot.position_y / self.global_height_ - 1
    let goal_x := 2 * self.robot_goal_.1 / self.global_width_ - 1
    let goal_y := 2 * self.robot_goal_.2 / self.global_height_ - 1
    let vel_x := robot.linear_x
    let vel_y := robot.linear_y
    let vel_x := if vel_x > 10 then vel_x / 1000 else vel_x
    let vel_y := if vel_y > 10 then vel_y / 1000 else vel_y
    let angle := L.atan2 robot.orientation_z robot.orientation_w
    let quat_z := robot.orientation_z
    let quat_w := robot.orientation_w
    if goal_x > -0.99 ∨ goal_y > -0.99 then
      let e := flipSwitch L self.flip_ angle
        { ego_x := ego_x, ego_y := ego_y, vel_x := vel_x, vel_y := vel_y,
          goal_x := goal_x, goal_y := goal_y, quat_z := quat_z, quat_w := quat_w }
      let self := { self with
        dataset_ := self.dataset_ ++
          [{ frame := self.counter_, ped := robot.track_id + 1,
             pos_y := e.ego_y, pos_x := e.ego_x,
             twist_x := e.vel_x, twist_y := e.vel_y,
             or_z := e.quat_z, or_w := e.quat_w,
             goal_x := e.goal_x, goal_y := e.goal_y }] }
      let self := rest.foldl personStep self
      some { self with counter_ := self.counter_ + 1 }
    else
      some self

/-- Method `PedsimData::callbackRobotGoal` (lines 345-349); `x`, `y` are `msg->x`,
`msg->y`. -/
def callbackRobotGoal (self : State α) (x y : α) : State α :=
  { self with robot_goal_ := (x, y) }

/-- An input of the node: a `TrackedPersons` message on `/pedsim/tracked_persons`
(its `tracks`) or a `Point` on `/pedsim/goal` (lines 70-71). -/
inductive Event (α : Type) where
  | tracked (tracks : List (TrackedPerson α))
  | goal (x y : α)

/-- The callback that the subscriptions of lines 70-71 run for an input. -/
def dispatch (L : Libm α) (self : State α) : Event α → Option (State α)
  | .tracked tracks => callbackTrackedPersons L self tracks
  | .goal x y => some (callbackRobotGoal self x y)

/-- The inputs of a list delivered one after the other, in order. -/
def deliver (L : Libm α) : State α → List (Event α) → Option (State α)
  | self, [] => some self
  | self, ev :: evs => (dispatch L self ev).bind (fun self => deliver L self evs)

/-- The test of line 244 on the members of the node: the cached goal,
normalised as at lines 230-231, is above -0.99 in one coordinate. -/
def accepts (self : State α) : Bool :=
  decide (2 * self.robot_goal_.1 / self.global_width_ - 1 > -0.99 ∨
    2 * self.robot_goal_.2 / self.global_height_ - 1 > -0.99)

/-- Whether an input is a batch that finds the test of line 244 true in
`self`: 1 if so, 0 otherwise. -/
def acceptedNow (self : State α) : Event α → Nat
  | .tracked _ => if accepts self then 1 else 0
  | .goal _ _ => 0

/-- How many of the `tracked` inputs of a list find the test of line 244 true
when they are delivered, in order, from `self`. -/
def countAccepted (L : Libm α) : State α → List (Event α) → Nat
  | _, [] => 0
  | self, ev :: evs =>
    acceptedNow self ev +
    (match dispatch L self ev with
      | some self => countAccepted L self evs
      | none => 0)

/-- The record that lines 312-321 insert for a person found inside the local
zone, from the members read there. -/
def personRow (self : State α) (p : TrackedPerson α) : Row α :=
  { frame := self.counter_
    ped := p.track_id + 1
    pos_y := 2 * p.position_y / self.global_height_ - 1
    pos_x := 2 * p.position_x / self.global_width_ - 1
    twist_x := if p.linear_x > 10 then p.linear_x / 1000 else p.linear_x
    twist_y := if p.linear_y > 10 then p.linear_y / 1000 else p.linear_y
    or_z := p.orientation_z
    or_w := p.orientation_w
    goal_x := 0
    goal_y := 0 }

/-- The local variables of `callbackTrackedPersons` as they stand before the
`switch` (lines 227-242). -/
def egoBefore (self : State α) (robot : TrackedPerson α) : Ego α :=
  { ego_x := 2 * robot.position_x / self.global_width_ - 1
    ego_y := 2 * robot.position_y / self.global_height_ - 1
    vel_x := if robot.linear_x > 10 then robot.linear_x / 1000 else robot.linear_x
    vel_y := if robot.linear_y > 10 then robot.linear_y / 1000 else robot.linear_y
    goal_x := 2 * self.robot_goal_.1 / self.global_width_ - 1
    goal_y := 2 * self.robot_goal_.2 / self.global_height_ - 1
    quat_z := robot.orientation_z
    quat_w := robot.orientation_w }

/-- The record that lines 302-305 insert for the robot, from the locals left by
the `switch`. -/
def egoRow (self : State α) (robot : TrackedPerson α) (e : Ego α) : Row α :=
  { frame := self.counter_
    ped := robot.track_id + 1
    pos_y := e.ego_y
    pos_x := e.ego_x
    twist_x := e.vel_x
    twist_y := e.vel_y
    or_z := e.quat_z
    or_w := e.quat_w
    goal_x := e.goal_x
    goal_y := e.goal_y }

/-- One insertion into the stream `dataset_`: the `int` counter, an
identifier, a `double`, the character `','` or `std::endl`. -/
inductive Token (α : Type) where
  | int (v : Int)
  | ident (v : Nat)
  | num (v : α)
  | comma
  | endl
deriving DecidableEq

/-- The chain of `<<` insertions that writes one record: lines 302-305 for the
robot and lines 318-321 for another person, which have the same shape. -/
def insertRecord (r : Row α) : List (Token α) :=
  [.int r.frame, .comma, .ident r.ped, .comma, .num r.pos_y, .comma, .num r.pos_x, .comma,
   .num r.twist_x, .comma, .num r.twist_y, .comma,
   .num r.or_z, .comma, .num r.or_w, .comma,
   .num r.goal_x, .comma, .num r.goal_y, .comma, .endl]

/-- Everything inserted into `dataset_` so far, record after record. -/
def written (self : State α) : List (Token α) :=
  self.dataset_.flatMap insertRecord

/-- The test of the `while` of `run` (line 184); `ok` is the value of
`ros::ok()` and the `int` counter is converted to `double` for the comparison
with `size_`. -/
def runContinues (ok : Bool) (self : State α) : Bool :=
  ok && decide ((self.counter_ : α) < self.size_)

/-- The value that a 32-bit two's complement `int` holds after the result `v`
is stored in it.  An `int` result outside the 32-bit range has no defined value
in C++; the wrapped value is the one the usual targets produce. -/
def toInt32 (v : Int) : Int :=
  (v + 2147483648) % 4294967296 - 2147483648

/-- Method `PedsimData::callbackTrackedPersons` with the member `counter_` as
the 32-bit `int` declared at line 143: the value left by `counter_ += 1`
(line 324) is the one a 32-bit `int` holds.  Everything else is as in
`callbackTrackedPersons`. -/
def callbackTrackedPersons32 (L : Libm α) (self : State α)
    (tracks : List (TrackedPerson α)) : Option (State α) :=
  (callbackTrackedPersons L self tracks).map
    (fun s => { s with counter_ := toInt32 s.counter_ })

/-- The callback run for an input, with the 32-bit counter. -/
def dispatch32 (L : Libm α) (self : State α) : Event α → Option (State α)
  | .tracked tracks => callbackTrackedPersons32 L self tracks
  | .goal x y => some (callbackRobotGoal self x y)

/-- The inputs of a list delivered one after the other, with the 32-bit
counter. -/
def deliver32 (L : Libm α) : State α → List (Event α) → Option (State α)
  | self, [] => some self
  | self, ev :: evs => (dispatch32 L self ev).bind (fun self => deliver32 L self evs)

/-- Method `PedsimData::run` (lines 181-189) over a finite script, with the
32-bit counter: each entry holds the value of `ros::ok()` at one test of the
`while` and the inputs that `ros::spinOnce()` delivers in that iteration.  The
result is the state and whether the loop was left, so that `transpose_CSV`
runs, within the script. -/
def run32 (L : Libm α) : State α → List (Bool × List (Event α)) → Option (State α × Bool)
  | self, [] => some (self, false)
  | self, (ok, evs) :: more =>
    if runContinues ok self then
      (deliver32 L self evs).bind (fun self => run32 L self more)
    else
      some (self, true)

/-- A concrete state: the default parameters after a goal update at (3, 3). -/
def sampleState : State α := callbackRobotGoal initDefault 3 3

/-- A concrete robot observation: id 0 at (1, 1) with velocity (12, -12). -/
def sampleRobot : TrackedPerson α :=
  { track_id := 0, position_x := 1, position_y := 1, linear_x := 12, linear_y := -12,
    orientation_z := 0, orientation_w := 1 }

/-- A concrete person inside the local zone of `sampleRobot`: id 1 at (2, 2)
with velocity (9.9, 11). -/
def samplePerson : TrackedPerson α :=
  { track_id := 1, position_x := 2, position_y := 2, linear_x := 9.9, linear_y := 11,
    orientation_z := 0, orientation_w := 1 }

end Model

/-- The `<cmath>` functions over the real numbers; `atan2 y x` is the argument
of the complex number `x + y i`. -/
noncomputable def realLibm : Libm ℝ :=
  { atan2 := fun y x => Complex.arg ⟨x, y⟩
    sin := Real.sin
    cos := Real.cos
    M_PI_4 := Real.pi / 4
    M_PI_2 := Real.pi / 2 }

section Lemmas

variable {α : Type} [LinearOrderedField α]

theorem inLocalZone_congr (s t : State α) (point : α × α)
    (hp : t.robot_position_ = s.robot_position_) (hw : t.local_width_ = s.local_width_)
    (hh : t.local_height_ = s.local_height_) :
    inLocalZone t point = inLocalZone s point := by
  simp only [inLocalZone, hp, hw, hh]

theorem foldl_personStep (s : State α) (rest : List (TrackedPerson α)) (d : List (Row α)) :
    rest.foldl personStep { s with dataset_ := d } =
      { s with
        dataset_ := d ++
          (rest.filter (fun p => inLocalZone s (p.position_x, p.position_y))).map
            (personRow s) } := by
  induction rest generalizing d with
  | nil => simp
  | cons p rest ih =>
    have hz : inLocalZone { s with dataset_ := d } (p.position_x, p.position_y) =
        inLocalZone s (p.position_x, p.position_y) := inLocalZone_congr _ _ _ rfl rfl rfl
    rw [List.foldl_cons]
    cases hin : inLocalZone s (p.position_x, p.position_y) with
    | false =>
      have : personStep { s with dataset_ := d } p = { s with dataset_ := d } := by
        simp [personStep, hz, hin]
      rw [this, ih]
      simp [List.filter_cons, hin]
    | true =>
      have : personStep { s with dataset_ := d } p =
          { s with dataset_ := d ++ [personRow s p] } := by
        simp [personStep, hz, hin, personRow]
      rw [this, ih]
      simp [List.filter_cons, hin]

/-- What `callbackTrackedPersons` leaves behind for a batch `robot :: rest`. -/
theorem callbackTrackedPersons_cons (L : Libm α) (s : State α) (robot : TrackedPerson α)
    (rest : List (TrackedPerson α)) :
    callbackTrackedPersons L s (robot :: rest) =
      some (if accepts s = true then
        { s with
          robot_position_ := (robot.position_x, robot.position_y)
          counter_ := s.counter_ + 1
          dataset_ := s.dataset_ ++
            egoRow s robot (flipSwitch L s.flip_
              (L.atan2 robot.orientation_z robot.orientation_w) (egoBefore s robot)) ::
            (rest.filter (fun p =>
              inLocalZone { s with robot_position_ := (robot.position_x, robot.position_y) }
                (p.position_x, p.position_y))).map (personRow s) }
      else { s with robot_position_ := (robot.position_x, robot.position_y) }) := by
  by_cases h : accepts s = true
  · have h' := h
    simp only [accepts, decide_eq_true_eq] at h'
    simp only [callbackTrackedPersons, h, h', if_true]
    have := foldl_personStep
      { s with robot_position_ := (robot.position_x, robot.position_y) } rest
      (s.dataset_ ++ [egoRow s robot (flipSwitch L s.flip_
        (L.atan2 robot.orientation_z robot.orientation_w) (egoBefore s robot))])
    simp only [egoRow, egoBefore] at this ⊢
    rw [this]
    simp [personRow]
  · have h' := h
    simp only [accepts, decide_eq_true_eq] at h'
    simp only [callbackTrackedPersons, h, h']
    simp

theorem accepts_sampleState : accepts (sampleState : State ℝ) = true := by
  simp only [accepts, sampleState, callbackRobotGoal, initDefault, init, decide_eq_true_eq]
  norm_num

theorem flipSwitch_one (L : Libm α) (a : α) (e : Ego α) : flipSwitch L 1 a e = e := rfl

theorem flipSwitch_two (L : Libm α) (a : α) (e : Ego α) :
    flipSwitch L 2 a e =
      { ego_x := e.ego_y, ego_y := 1 - e.ego_x, vel_x := e.vel_y, vel_y := 1 - e.vel_x,
        goal_x := e.goal_y, goal_y := 1 - e.goal_x,
        quat_z := L.sin (a + L.M_PI_4), quat_w := L.cos (a + L.M_PI_4) } := rfl

theorem flipSwitch_three (L : Libm α) (a : α) (e : Ego α) :
    flipSwitch L 3 a e =
      { ego_x := 1 - e.ego_x, ego_y := 1 - e.ego_y, vel_x := 1 - e.vel_x, vel_y := 1 - e.vel_y,
        goal_x := 1 - e.goal_x, goal_y := 1 - e.goal_y,
        quat_z := L.sin (a + L.M_PI_2), quat_w := L.cos (a + L.M_PI_2) } := rfl

theorem flipSwitch_four (L : Libm α) (a : α) (e : Ego α) :
    flipSwitch L 4 a e =
      { ego_x := 1 - e.ego_y, ego_y := e.ego_x, vel_x := 1 - e.vel_y, vel_y := e.vel_x,
        goal_x := 1 - e.goal_y, goal_y := e.goal_x,
        quat_z := L.sin (a - L.M_PI_4), quat_w := L.cos (a - L.M_PI_4) } := rfl

theorem flipSwitch_other (L : Libm α) (f : Int) (a : α) (e : Ego α)
    (h1 : f ≠ 1) (h2 : f ≠ 2) (h3 : f ≠ 3) (h4 : f ≠ 4) : flipSwitch L f a e = e := by
  unfold flipSwitch
  split <;> first | rfl | contradiction

theorem dispatch_counter (L : Libm α) (s : State α) (ev : Event α)
    (hne : ev ≠ Event.tracked []) :
    ∃ s', dispatch L s ev = some s' ∧
      s'.counter_ = s.counter_ + (acceptedNow s ev : Int) := by
  cases ev with
  | goal x y => exact ⟨_, rfl, by simp [callbackRobotGoal, acceptedNow]⟩
  | tracked tracks =>
    cases tracks with
    | nil => exact absurd rfl hne
    | cons robot rest =>
      simp only [dispatch]
      rw [callbackTrackedPersons_cons]
      by_cases h : accepts s = true
      · rw [if_pos h]
        exact ⟨_, rfl, by simp [h, acceptedNow]⟩
      · rw [if_neg h]
        exact ⟨_, rfl, by simp [h, acceptedNow]⟩

theorem deliver_counter (L : Libm α) (evs : List (Event α)) :
    ∀ s : State α, (∀ ev ∈ evs, ev ≠ Event.tracked []) →
      ∃ sN, deliver L s evs = some sN ∧
        sN.counter_ = s.counter_ + (countAccepted L s evs : Int) := by
  induction evs with
  | nil =>
    intro s _
    exact ⟨s, rfl, by simp [countAccepted]⟩
  | cons ev evs ih =>
    intro s hne
    obtain ⟨s1, h1, hc1⟩ := dispatch_counter L s ev (hne ev (List.mem_cons_self _ _))
    obtain ⟨sN, hN, hcN⟩ := ih s1 (fun e he => hne e (List.mem_cons_of_mem _ he))
    refine ⟨sN, ?_, ?_⟩
    · simp only [deliver, h1, Option.some_bind]
      exact hN
    · rw [hcN, hc1]
      simp only [countAccepted, h1]
      push_cast
      ring

theorem deliver_append (L : Libm α) (pre post : List (Event α)) :
    ∀ s : State α,
      deliver L s (pre ++ post) = (deliver L s pre).bind (fun s1 => deliver L s1 post) := by
  induction pre with
  | nil =>
    intro s
    simp [deliver]
  | cons ev pre ih =>
    intro s
    simp only [List.cons_append, deliver]
    cases hd : dispatch L s ev with
    | none => simp
    | some s1 => simp [ih s1]

theorem countAccepted_append (L : Libm α) (pre post : List (Event α)) :
    ∀ s : State α,
      countAccepted L s (pre ++ post) =
        countAccepted L s pre +
          (match deliver L s pre with
            | some s1 => countAccepted L s1 post
            | none => 0) := by
  induction pre with
  | nil =>
    intro s
    simp [countAccepted, deliver]
  | cons ev pre ih =>
    intro s
    simp only [List.cons_append, countAccepted, deliver]
    cases hd : dispatch L s ev with
    | none => simp
    | some s1 =>
      have h1 := ih s1
      simp only [Option.some_bind, List.append_eq] at h1 ⊢
      omega

theorem countAccepted_le_length (L : Libm α) (evs : List (Event α)) :
    ∀ s : State α, countAccepted L s evs ≤ evs.length := by
  induction evs with
  | nil =>
    intro s
    simp [countAccepted]
  | cons ev evs ih =>
    intro s
    have h1 : acceptedNow s ev ≤ 1 := by
      cases ev with
      | goal x y => simp [acceptedNow]
      | tracked tracks =>
        simp only [acceptedNow]
        split <;> omega
    simp only [countAccepted, List.length_cons]
    cases dispatch L s ev with
    | none =>
      simp only
      omega
    | some s1 =>
      have h2 := ih s1
      simp only
      omega

theorem accepts_congr (s t : State α) (hg : t.robot_goal_ = s.robot_goal_)
    (hw : t.global_width_ = s.global_width_) (hh : t.global_height_ = s.global_height_) :
    accepts t = accepts s := by
  simp only [accepts, hg, hw, hh]

theorem accepts_goal_zero (s : State α) (hg : s.robot_goal_ = (0, 0)) :
    accepts s = false := by
  simp only [accepts, hg, decide_eq_false_iff_not]
  norm_num

theorem deliver_rejected (L : Libm α) (batches : List (List (TrackedPerson α))) :
    ∀ s : State α, (∀ b ∈ batches, b ≠ []) → accepts s = false →
      ∃ pos, deliver L s (batches.map Event.tracked) =
        some { s with robot_position_ := pos } := by
  induction batches with
  | nil =>
    intro s _ _
    exact ⟨s.robot_position_, rfl⟩
  | cons b batches ih =>
    intro s hne hrej
    cases b with
    | nil => exact absurd rfl (hne [] (List.mem_cons_self _ _))
    | cons robot rest =>
      have hrej' : ¬ accepts s = true := by simp [hrej]
      have hstep : dispatch L s (Event.tracked (robot :: rest)) =
          some { s with robot_position_ := (robot.position_x, robot.position_y) } := by
        simp only [dispatch]
        rw [callbackTrackedPersons_cons, if_neg hrej']
      obtain ⟨pos, hpos⟩ := ih { s with robot_position_ := (robot.position_x, robot.position_y) }
        (fun b hb => hne b (List.mem_cons_of_mem _ hb))
        ((accepts_congr s _ rfl rfl rfl).trans hrej)
      exact ⟨pos, by simp only [List.map_cons, deliver, hstep, Option.some_bind]; exact hpos⟩

theorem deliver_single (L : Libm α) (s : State α) (ev : Event α) :
    deliver L s [ev] = dispatch L s ev := by
  simp only [deliver]
  cases dispatch L s ev <;> rfl

theorem deliver_goal_tracked (L : Libm α) (s : State α) (x y : α)
    (tracks : List (TrackedPerson α)) :
    deliver L s [Event.goal x y, Event.tracked tracks] =
      callbackTrackedPersons L (callbackRobotGoal s x y) tracks := by
  simp only [deliver, dispatch, Option.some_bind]
  cases callbackTrackedPersons L (callbackRobotGoal s x y) tracks <;> rfl

theorem deliver_cons_of_eq (L : Libm α) (s s1 : State α) (ev : Event α)
    (evs : List (Event α)) (h : dispatch L s ev = some s1) :
    deliver L s (ev :: evs) = deliver L s1 evs := by
  simp only [deliver, h, Option.some_bind]

theorem dispatch_size_rows (L : Libm α) (s s1 : State α) (ev : Event α)
    (h : dispatch L s ev = some s1) :
    s1.size_ = s.size_ ∧ s.dataset_.length + acceptedNow s ev ≤ s1.dataset_.length := by
  cases ev with
  | goal x y =>
    simp only [dispatch, Option.some.injEq] at h
    subst h
    simp [callbackRobotGoal, acceptedNow]
  | tracked tracks =>
    cases tracks with
    | nil => simp [dispatch, callbackTrackedPersons] at h
    | cons robot rest =>
      simp only [dispatch] at h
      rw [callbackTrackedPersons_cons] at h
      by_cases hacc : accepts s = true
      · rw [if_pos hacc, Option.some.injEq] at h
        subst h
        simp only [acceptedNow, hacc, if_true, List.length_append, List.length_cons,
          true_and]
        omega
      · rw [if_neg hacc, Option.some.injEq] at h
        subst h
        simp [acceptedNow, hacc]

theorem deliver_size_rows (L : Libm α) (evs : List (Event α)) :
    ∀ s sN : State α, deliver L s evs = some sN →
      sN.size_ = s.size_ ∧
        s.dataset_.length + countAccepted L s evs ≤ sN.dataset_.length := by
  induction evs with
  | nil =>
    intro s sN h
    simp only [deliver, Option.some.injEq] at h
    subst h
    simp [countAccepted]
  | cons ev evs ih =>
    intro s sN h
    simp only [deliver] at h
    cases hd : dispatch L s ev with
    | none => simp [hd] at h
    | some s1 =>
      rw [hd, Option.some_bind] at h
      obtain ⟨hs1, hr1⟩ := dispatch_size_rows L s s1 ev hd
      obtain ⟨hs2, hr2⟩ := ih s1 sN h
      refine ⟨hs2.trans hs1, ?_⟩
      simp only [countAccepted, hd]
      omega

theorem normalized_bounds (p e : α) (he : 0 < e) (h0 : 0 ≤ p) (h1 : p ≤ e) :
    0 ≤ 2 * p / e ∧ 2 * p / e ≤ 2 ∧ (p < e / 2 → 2 * p / e < 1) := by
  refine ⟨div_nonneg (by linarith) he.le, ?_, ?_⟩
  · rw [div_le_iff₀ he]
    linarith
  · intro hp
    rw [div_lt_iff₀ he]
    linarith

theorem toInt32_of_range (v : Int) (h0 : -2147483648 ≤ v) (h1 : v ≤ 2147483647) :
    toInt32 v = v := by
  unfold toInt32
  omega

theorem toInt32_range (v : Int) : -2147483648 ≤ toInt32 v ∧ toInt32 v ≤ 2147483647 := by
  unfold toInt32
  omega

theorem toInt32_add (a b : Int) : toInt32 (toInt32 a + b) = toInt32 (a + b) := by
  unfold toInt32
  omega

theorem dispatch_counter_of_eq (L : Libm α) (s s1 : State α) (ev : Event α)
    (h : dispatch L s ev = some s1) :
    s1.counter_ = s.counter_ + (acceptedNow s ev : Int) := by
  have hne : ev ≠ Event.tracked [] := by
    intro he
    subst he
    simp [dispatch, callbackTrackedPersons] at h
  obtain ⟨s2, h2, hc⟩ := dispatch_counter L s ev hne
  rw [h2, Option.some.injEq] at h
  subst h
  exact hc

theorem dispatch32_eq (L : Libm α) (s : State α) (ev : Event α)
    (h0 : 0 ≤ s.counter_) (h1 : s.counter_ + (acceptedNow s ev : Int) < 2147483648) :
    dispatch32 L s ev = dispatch L s ev := by
  cases ev with
  | goal x y => rfl
  | tracked tracks =>
    simp only [dispatch32, dispatch, callbackTrackedPersons32]
    cases hd : callbackTrackedPersons L s tracks with
    | none => rfl
    | some s1 =>
      have hc := dispatch_counter_of_eq L s s1 (Event.tracked tracks) hd
      have hr : toInt32 s1.counter_ = s1.counter_ :=
        toInt32_of_range _ (by rw [hc]; omega) (by rw [hc]; omega)
      simp only [Option.map_some', hr]

theorem deliver32_eq (L : Libm α) (evs : List (Event α)) :
    ∀ s : State α, 0 ≤ s.counter_ →
      s.counter_ + (countAccepted L s evs : Int) < 2147483648 →
      deliver32 L s evs = deliver L s evs := by
  induction evs with
  | nil =>
    intro s _ _
    rfl
  | cons ev evs ih =>
    intro s h0 h1
    simp only [deliver32, deliver]
    cases hd : dispatch L s ev with
    | none =>
      have hstep : dispatch32 L s ev = none := by
        cases ev with
        | goal x y => simp [dispatch] at hd
        | tracked tracks =>
          simp only [dispatch] at hd
          simp only [dispatch32, callbackTrackedPersons32, hd, Option.map_none']
      rw [hstep]
      rfl
    | some s1 =>
      have hc := dispatch_counter_of_eq L s s1 ev hd
      simp only [countAccepted, hd] at h1
      push_cast at h1
      have hstep : dispatch32 L s ev = some s1 := by
        rw [dispatch32_eq L s ev h0 (by omega), hd]
      rw [hstep]
      simp only [Option.some_bind]
      exact ih s1 (by rw [hc]; omega) (by rw [hc]; omega)

theorem countAccepted_prefix_le (L : Libm α) (s : State α) (pre post : List (Event α)) :
    countAccepted L s pre ≤ countAccepted L s (pre ++ post) := by
  rw [countAccepted_append]
  omega

theorem callbackTrackedPersons32_counter (L : Libm α) (s : State α)
    (robot : TrackedPerson α) (rest : List (TrackedPerson α)) (h : accepts s = true) :
    ∃ s1, callbackTrackedPersons32 L s (robot :: rest) = some s1 ∧
      s1.counter_ = toInt32 (s.counter_ + 1) ∧ accepts s1 = true := by
  simp only [callbackTrackedPersons32]
  rw [callbackTrackedPersons_cons, if_pos h]
  exact ⟨_, rfl, rfl, (accepts_congr s _ rfl rfl rfl).trans h⟩

theorem deliver32_replicate (L : Libm α) (robot : TrackedPerson α)
    (rest : List (TrackedPerson α)) (n : Nat) :
    ∀ s : State α, accepts s = true → toInt32 s.counter_ = s.counter_ →
      ∃ s', deliver32 L s (List.replicate n (Event.tracked (robot :: rest))) = some s' ∧
        s'.counter_ = toInt32 (s.counter_ + (n : Int)) ∧ accepts s' = true := by
  induction n with
  | zero =>
    intro s h hr
    exact ⟨s, rfl, by simpa using hr.symm, h⟩
  | succ n ih =>
    intro s h _
    obtain ⟨s1, h1, hc1, ha1⟩ := callbackTrackedPersons32_counter L s robot rest h
    have hr1 : toInt32 s1.counter_ = s1.counter_ := by
      rw [hc1]
      exact toInt32_of_range _ (toInt32_range _).1 (toInt32_range _).2
    obtain ⟨s', h', hc', ha'⟩ := ih s1 ha1 hr1
    refine ⟨s', ?_, ?_, ha'⟩
    · simp only [List.replicate_succ, deliver32, dispatch32, h1, Option.some_bind]
      exact h'
    · rw [hc', hc1, toInt32_add]
      push_cast
      congr 1
      ring

theorem deliver32_cons_goal (L : Libm α) (s : State α) (x y : α) (evs : List (Event α)) :
    deliver32 L s (Event.goal x y :: evs) = deliver32 L (callbackRobotGoal s x y) evs := rfl

theorem countAccepted_cons_goal (L : Libm α) (s : State α) (x y : α)
    (evs : List (Event α)) :
    countAccepted L s (Event.goal x y :: evs) =
      countAccepted L (callbackRobotGoal s x y) evs := by
  simp only [countAccepted, acceptedNow, dispatch, Nat.zero_add]

theorem dispatch_accepted (L : Libm α) (s : State α) (robot : TrackedPerson α)
    (rest : List (TrackedPerson α)) (h : accepts s = true) :
    ∃ s1, dispatch L s (Event.tracked (robot :: rest)) = some s1 ∧ accepts s1 = true := by
  simp only [dispatch]
  rw [callbackTrackedPersons_cons, if_pos h]
  exact ⟨_, rfl, (accepts_congr s _ rfl rfl rfl).trans h⟩

theorem countAccepted_replicate (L : Libm α) (robot : TrackedPerson α)
    (rest : List (TrackedPerson α)) (n : Nat) :
    ∀ s : State α, accepts s = true →
      countAccepted L s (List.replicate n (Event.tracked (robot :: rest))) = n := by
  induction n with
  | zero =>
    intro s _
    rfl
  | succ n ih =>
    intro s h
    obtain ⟨s1, h1, ha1⟩ := dispatch_accepted L s robot rest h
    simp only [List.replicate_succ, countAccepted, acceptedNow, h, if_true, h1]
    rw [ih s1 ha1]
    omega

theorem mem_personRow_frame (s : State α) (ps : List (TrackedPerson α)) (r : Row α)
    (hr : r ∈ ps.map (personRow s)) : r.frame = s.counter_ := by
  obtain ⟨p, _, rfl⟩ := List.mem_map.mp hr
  rfl

theorem abs_unit (a : ℝ) : Complex.abs ⟨Real.cos a, Real.sin a⟩ = 1 := by
  rw [Complex.abs_apply, Complex.normSq_mk]
  have h := Real.cos_sq_add_sin_sq a
  rw [show Real.cos a * Real.cos a + Real.sin a * Real.sin a = 1 by nlinarith]
  simp

theorem sin_atan2_unit (a : ℝ) :
    Real.sin (realLibm.atan2 (Real.sin a) (Real.cos a)) = Real.sin a := by
  show Real.sin (Complex.arg ⟨Real.cos a, Real.sin a⟩) = Real.sin a
  rw [Complex.sin_arg, abs_unit]
  simp

theorem cos_atan2_unit (a : ℝ) :
    Real.cos (realLibm.atan2 (Real.sin a) (Real.cos a)) = Real.cos a := by
  show Real.cos (Complex.arg ⟨Real.cos a, Real.sin a⟩) = Real.cos a
  have hne : (⟨Real.cos a, Real.sin a⟩ : ℂ) ≠ 0 := by
    intro h
    have habs := abs_unit a
    rw [h] at habs
    simp at habs
  rw [Complex.cos_arg hne, abs_unit]
  simp

theorem sin_two_atan2_unit (a : ℝ) :
    Real.sin (2 * realLibm.atan2 (Real.sin a) (Real.cos a)) = Real.sin (2 * a) := by
  rw [Real.sin_two_mul, Real.sin_two_mul, sin_atan2_unit, cos_atan2_unit]

theorem cos_two_atan2_unit (a : ℝ) :
    Real.cos (2 * realLibm.atan2 (Real.sin a) (Real.cos a)) = Real.cos (2 * a) := by
  rw [Real.cos_two_mul, Real.cos_two_mul, cos_atan2_unit]

theorem cos_sq_sub_sin_sq_eq (x : ℝ) :
    Real.cos x ^ 2 - Real.sin x ^ 2 = Real.cos (2 * x) := by
  rw [Real.cos_two_mul]
  nlinarith [Real.sin_sq_add_cos_sq x]

theorem two_sin_cos_eq (x : ℝ) : 2 * Real.sin x * Real.cos x = Real.sin (2 * x) :=
  (Real.sin_two_mul x).symm

end Lemmas

/-! ## The gate, the velocity correction and the local zone -/

section Claims

variable {α : Type} [LinearOrderedField α]

/-- C2, as stated, fails: with the goal set to (3, 3) and the default
parameters, a robot with `linear.x = -12` and a person inside the local zone
with `linear.x = -20` keep these values in their rows, although both have an
absolute value above 10 (the person's `linear.y = 12` does become 0.012). -/
theorem velocity_correction_ignores_negative :
    callbackTrackedPersons realLibm (callbackRobotGoal (initDefault : State ℝ) 3 3)
        [{ track_id := 0, position_x := 1, position_y := 1, linear_x := -12, linear_y := 0,
           orientation_z := 0, orientation_w := 1 },
         { track_id := 1, position_x := 2, position_y := 2, linear_x := -20, linear_y := 12,
           orientation_z := 0, orientation_w := 1 }] =
      some { callbackRobotGoal (initDefault : State ℝ) 3 3 with
        robot_position_ := (1, 1)
        counter_ := 1
        dataset_ :=
          [{ frame := 0, ped := 1, pos_y := -24 / 25, pos_x := -24 / 25,
             twist_x := -12, twist_y := 0, or_z := 0, or_w := 1,
             goal_x := -22 / 25, goal_y := -22 / 25 },
           { frame := 0, ped := 2, pos_y := -23 / 25, pos_x := -23 / 25,
             twist_x := -20, twist_y := 0.012, or_z := 0, or_w := 1,
             goal_x := 0, goal_y := 0 }] } ∧
    |(-12 : ℝ)| > 10 ∧ (-12 : ℝ) ≠ -12 / 1000 ∧
    |(-20 : ℝ)| > 10 ∧ (-20 : ℝ) ≠ -20 / 1000 := by
  refine ⟨?_, by norm_num, by norm_num, by norm_num, by norm_num⟩
  rw [callbackTrackedPersons_cons]
  have hacc : accepts (callbackRobotGoal (initDefault : State ℝ) 3 3) = true := by
    simp only [accepts, callbackRobotGoal, initDefault, init, decide_eq_true_eq]
    norm_num
  rw [if_pos hacc]
  simp only [callbackRobotGoal, initDefault, init, egoRow, egoBefore, flipSwitch,
    inLocalZone, List.filter, List.map]
  norm_num [personRow]

/-- C2, amended: the correction `c` applied to each velocity component of the
robot (before the `switch`) and of every person inside the local zone returns
`v / 1000` for every `v > 10` and `v` itself for every `v <= 10`, whatever the
sign of `v`; 12 becomes 0.012 and 9.9 stays 9.9. -/
theorem velocity_correction (L : Libm α) (s : State α) (robot : TrackedPerson α)
    (rest : List (TrackedPerson α)) (h : accepts s = true) :
    ∃ c : α → α,
      (∀ v, v > 10 → c v = v / 1000) ∧ (∀ v, v ≤ 10 → c v = v) ∧
      c 12 = 0.012 ∧ c 9.9 = 9.9 ∧
      ∃ s' e ego others,
        callbackTrackedPersons L s (robot :: rest) = some s' ∧
        s'.dataset_ = s.dataset_ ++ ego :: others ∧
        e.vel_x = c robot.linear_x ∧ e.vel_y = c robot.linear_y ∧
        ego = egoRow s robot
          (flipSwitch L s.flip_ (L.atan2 robot.orientation_z robot.orientation_w) e) ∧
        others.map (fun r => (r.twist_x, r.twist_y)) =
          (rest.filter (fun p => inLocalZone s' (p.position_x, p.position_y))).map
            (fun p => (c p.linear_x, c p.linear_y)) := by
  refine ⟨fun v => if v > 10 then v / 1000 else v, ?_, ?_, ?_, ?_, ?_⟩
  · intro v hv
    simp [hv]
  · intro v hv
    simp [not_lt.mpr hv]
  · norm_num
  · norm_num
  · rw [callbackTrackedPersons_cons, if_pos h]
    refine ⟨_, egoBefore s robot, _, _, rfl, rfl, rfl, rfl, rfl, ?_⟩
    simp only [List.map_map]
    rfl

/-- C2, amended, at a concrete input: `sampleState`, `sampleRobot` and
`samplePerson` over the reals. -/
theorem velocity_correction_witness :
    accepts (sampleState : State ℝ) = true ∧
    ∃ c : ℝ → ℝ,
      (∀ v, v > 10 → c v = v / 1000) ∧ (∀ v, v ≤ 10 → c v = v) ∧
      c 12 = 0.012 ∧ c 9.9 = 9.9 ∧
      ∃ s' e ego others,
        callbackTrackedPersons realLibm sampleState (sampleRobot :: [samplePerson]) = some s' ∧
        s'.dataset_ = (sampleState : State ℝ).dataset_ ++ ego :: others ∧
        e.vel_x = c (sampleRobot : TrackedPerson ℝ).linear_x ∧
        e.vel_y = c (sampleRobot : TrackedPerson ℝ).linear_y ∧
        ego = egoRow sampleState sampleRobot
          (flipSwitch realLibm (sampleState : State ℝ).flip_
            (realLibm.atan2 (sampleRobot : TrackedPerson ℝ).orientation_z
              (sampleRobot : TrackedPerson ℝ).orientation_w) e) ∧
        others.map (fun r => (r.twist_x, r.twist_y)) =
          (List.filter (fun p => inLocalZone s' (p.position_x, p.position_y))
            [samplePerson]).map (fun p => (c p.linear_x, c p.linear_y)) :=
  ⟨accepts_sampleState, velocity_correction realLibm sampleState sampleRobot [samplePerson]
    accepts_sampleState⟩

/-- C3: `inLocalZone` answers true exactly when
`max (|rx - px| - w / 2) (|ry - py| - h / 2) <= -0.00001`; a point it includes
is strictly inside the half extents on both axes; with the robot at (0, 0) and
a 12 x 12 local zone, (5, 5) is included and (6, 6) is not. -/
theorem inLocalZone_iff (s : State α) (px py gw gh size : α) (flip : Int) :
    (inLocalZone s (px, py) = true ↔
      max (|s.robot_position_.1 - px| - s.local_width_ / 2)
        (|s.robot_position_.2 - py| - s.local_height_ / 2) ≤ -0.00001) ∧
    (inLocalZone s (px, py) = true →
      |s.robot_position_.1 - px| < s.local_width_ / 2 ∧
      |s.robot_position_.2 - py| < s.local_height_ / 2) ∧
    (init 12 12 gw gh size flip).robot_position_ = (0, 0) ∧
    inLocalZone (init 12 12 gw gh size flip) (5, 5) = true ∧
    inLocalZone (init 12 12 gw gh size flip) (6, 6) = false := by
  have key : inLocalZone s (px, py) = true ↔
      max (|s.robot_position_.1 - px| - s.local_width_ / 2)
        (|s.robot_position_.2 - py| - s.local_height_ / 2) ≤ -0.00001 := by
    simp [inLocalZone]
  refine ⟨key, ?_, rfl, ?_, ?_⟩
  · intro h
    have h2 := key.mp h
    have hneg : (-0.00001 : α) < 0 := by norm_num
    have hw := le_trans (le_max_left _ _) h2
    have hh := le_trans (le_max_right _ _) h2
    constructor <;> linarith
  · simp only [inLocalZone, init]
    norm_num
  · simp only [inLocalZone, init]
    norm_num [abs_of_nonpos]

/-! ## The robot row and the rows of the other persons -/

/-- C4: for every accepted batch the first appended row is the robot's, and its
position, corrected velocity and goal pairs are the images, under one map `F`,
of the normalised position, the corrected velocity and the normalised goal:
`F (x, y) = (x, y)` for profile 1, `(y, 1 - x)` for profile 2,
`(1 - x, 1 - y)` for profile 3 and `(1 - y, x)` for profile 4. -/
theorem ego_row_flip (L : Libm α) (s : State α) (robot : TrackedPerson α)
    (rest : List (TrackedPerson α)) (h : accepts s = true) :
    ∃ (F : α × α → α × α) (s' : State α) (ego : Row α) (others : List (Row α)),
      (s.flip_ = 1 → ∀ x y, F (x, y) = (x, y)) ∧
      (s.flip_ = 2 → ∀ x y, F (x, y) = (y, 1 - x)) ∧
      (s.flip_ = 3 → ∀ x y, F (x, y) = (1 - x, 1 - y)) ∧
      (s.flip_ = 4 → ∀ x y, F (x, y) = (1 - y, x)) ∧
      callbackTrackedPersons L s (robot :: rest) = some s' ∧
      s'.dataset_ = s.dataset_ ++ ego :: others ∧
      (ego.pos_x, ego.pos_y) =
        F (2 * robot.position_x / s.global_width_ - 1,
           2 * robot.position_y / s.global_height_ - 1) ∧
      (ego.twist_x, ego.twist_y) =
        F (if robot.linear_x > 10 then robot.linear_x / 1000 else robot.linear_x,
           if robot.linear_y > 10 then robot.linear_y / 1000 else robot.linear_y) ∧
      (ego.goal_x, ego.goal_y) =
        F (2 * s.robot_goal_.1 / s.global_width_ - 1,
           2 * s.robot_goal_.2 / s.global_height_ - 1) := by
  rw [callbackTrackedPersons_cons, if_pos h]
  refine ⟨fun p => if s.flip_ = 2 then (p.2, 1 - p.1) else if s.flip_ = 3 then (1 - p.1, 1 - p.2)
    else if s.flip_ = 4 then (1 - p.2, p.1) else p, _, _, _, ?_, ?_, ?_, ?_, rfl, rfl, ?_⟩
  · intro hf x y
    simp [hf]
  · intro hf x y
    simp [hf]
  · intro hf x y
    simp [hf]
  · intro hf x y
    simp [hf]
  · by_cases h2 : s.flip_ = 2
    · simp [h2, flipSwitch_two, egoRow, egoBefore]
    · by_cases h3 : s.flip_ = 3
      · simp [h3, flipSwitch_three, egoRow, egoBefore]
      · by_cases h4 : s.flip_ = 4
        · simp [h4, flipSwitch_four, egoRow, egoBefore]
        · by_cases h1 : s.flip_ = 1
          · simp [h1, flipSwitch_one, egoRow, egoBefore]
          · simp [h2, h3, h4, flipSwitch_other L s.flip_ _ _ h1 h2 h3 h4, egoRow, egoBefore]

/-- C4 at a concrete input: `sampleState`, `sampleRobot` and `samplePerson`
over the reals. -/
theorem ego_row_flip_witness :
    accepts (sampleState : State ℝ) = true ∧
    ∃ (F : ℝ × ℝ → ℝ × ℝ) (s' : State ℝ) (ego : Row ℝ) (others : List (Row ℝ)),
      ((sampleState : State ℝ).flip_ = 1 → ∀ x y, F (x, y) = (x, y)) ∧
      ((sampleState : State ℝ).flip_ = 2 → ∀ x y, F (x, y) = (y, 1 - x)) ∧
      ((sampleState : State ℝ).flip_ = 3 → ∀ x y, F (x, y) = (1 - x, 1 - y)) ∧
      ((sampleState : State ℝ).flip_ = 4 → ∀ x y, F (x, y) = (1 - y, x)) ∧
      callbackTrackedPersons realLibm sampleState (sampleRobot :: [samplePerson]) = some s' ∧
      s'.dataset_ = (sampleState : State ℝ).dataset_ ++ ego :: others ∧
      (ego.pos_x, ego.pos_y) =
        F (2 * (sampleRobot : TrackedPerson ℝ).position_x /
             (sampleState : State ℝ).global_width_ - 1,
           2 * (sampleRobot : TrackedPerson ℝ).position_y /
             (sampleState : State ℝ).global_height_ - 1) ∧
      (ego.twist_x, ego.twist_y) =
        F (if (sampleRobot : TrackedPerson ℝ).linear_x > 10
             then (sampleRobot : TrackedPerson ℝ).linear_x / 1000
             else (sampleRobot : TrackedPerson ℝ).linear_x,
           if (sampleRobot : TrackedPerson ℝ).linear_y > 10
             then (sampleRobot : TrackedPerson ℝ).linear_y / 1000
             else (sampleRobot : TrackedPerson ℝ).linear_y) ∧
      (ego.goal_x, ego.goal_y) =
        F (2 * (sampleState : State ℝ).robot_goal_.1 / (sampleState : State ℝ).global_width_ - 1,
           2 * (sampleState : State ℝ).robot_goal_.2 /
             (sampleState : State ℝ).global_height_ - 1) :=
  ⟨accepts_sampleState,
    ego_row_flip realLibm sampleState sampleRobot [samplePerson] accepts_sampleState⟩

/-- C5: in an accepted batch the values that enter the `switch` for the robot
and the position fields of every row of a person are exactly
`2 * p / e - 1`, the x coordinate (robot, person, goal) with the global width
and the y coordinate with the global height; a raw 0 gives -1 and, for a
positive extent, a raw coordinate equal to the extent gives 1. -/
theorem normalization (L : Libm α) (s : State α) (robot : TrackedPerson α)
    (rest : List (TrackedPerson α)) (h : accepts s = true) :
    ∃ (s' : State α) (e : Ego α) (others : List (Row α)),
      callbackTrackedPersons L s (robot :: rest) = some s' ∧
      s'.dataset_ = s.dataset_ ++
        egoRow s robot
          (flipSwitch L s.flip_ (L.atan2 robot.orientation_z robot.orientation_w) e) ::
        others ∧
      e.ego_x = 2 * robot.position_x / s.global_width_ - 1 ∧
      e.ego_y = 2 * robot.position_y / s.global_height_ - 1 ∧
      e.goal_x = 2 * s.robot_goal_.1 / s.global_width_ - 1 ∧
      e.goal_y = 2 * s.robot_goal_.2 / s.global_height_ - 1 ∧
      others.map (fun r => (r.pos_x, r.pos_y)) =
        (rest.filter (fun p => inLocalZone s' (p.position_x, p.position_y))).map
          (fun p => (2 * p.position_x / s.global_width_ - 1,
                     2 * p.position_y / s.global_height_ - 1)) ∧
      (robot.position_x = 0 → e.ego_x = -1) ∧
      (robot.position_y = 0 → e.ego_y = -1) ∧
      (0 < s.global_width_ → robot.position_x = s.global_width_ → e.ego_x = 1) ∧
      (0 < s.global_height_ → robot.position_y = s.global_height_ → e.ego_y = 1) := by
  rw [callbackTrackedPersons_cons, if_pos h]
  refine ⟨_, egoBefore s robot, _, rfl, rfl, rfl, rfl, rfl, rfl, ?_, ?_, ?_, ?_, ?_⟩
  · simp only [List.map_map]
    rfl
  · intro h0
    simp [egoBefore, h0]
  · intro h0
    simp [egoBefore, h0]
  · intro hpos hx
    simp only [egoBefore, hx]
    field_simp
    ring
  · intro hpos hy
    simp only [egoBefore, hy]
    field_simp
    ring

/-- C5 at a concrete input: `sampleState`, `sampleRobot` and `samplePerson`
over the reals. -/
theorem normalization_witness :
    accepts (sampleState : State ℝ) = true ∧
    ∃ (s' : State ℝ) (e : Ego ℝ) (others : List (Row ℝ)),
      callbackTrackedPersons realLibm sampleState (sampleRobot :: [samplePerson]) = some s' ∧
      s'.dataset_ = (sampleState : State ℝ).dataset_ ++
        egoRow sampleState sampleRobot
          (flipSwitch realLibm (sampleState : State ℝ).flip_
            (realLibm.atan2 (sampleRobot : TrackedPerson ℝ).orientation_z
              (sampleRobot : TrackedPerson ℝ).orientation_w) e) ::
        others ∧
      e.ego_x = 2 * (sampleRobot : TrackedPerson ℝ).position_x /
        (sampleState : State ℝ).global_width_ - 1 ∧
      e.ego_y = 2 * (sampleRobot : TrackedPerson ℝ).position_y /
        (sampleState : State ℝ).global_height_ - 1 ∧
      e.goal_x = 2 * (sampleState : State ℝ).robot_goal_.1 /
        (sampleState : State ℝ).global_width_ - 1 ∧
      e.goal_y = 2 * (sampleState : State ℝ).robot_goal_.2 /
        (sampleState : State ℝ).global_height_ - 1 ∧
      others.map (fun r => (r.pos_x, r.pos_y)) =
        (List.filter (fun p => inLocalZone s' (p.position_x, p.position_y))
          [samplePerson]).map
          (fun p => (2 * p.position_x / (sampleState : State ℝ).global_width_ - 1,
                     2 * p.position_y / (sampleState : State ℝ).global_height_ - 1)) ∧
      ((sampleRobot : TrackedPerson ℝ).position_x = 0 → e.ego_x = -1) ∧
      ((sampleRobot : TrackedPerson ℝ).position_y = 0 → e.ego_y = -1) ∧
      (0 < (sampleState : State ℝ).global_width_ →
        (sampleRobot : TrackedPerson ℝ).position_x = (sampleState : State ℝ).global_width_ →
        e.ego_x = 1) ∧
      (0 < (sampleState : State ℝ).global_height_ →
        (sampleRobot : TrackedPerson ℝ).position_y = (sampleState : State ℝ).global_height_ →
        e.ego_y = 1) :=
  ⟨accepts_sampleState,
    normalization realLibm sampleState sampleRobot [samplePerson] accepts_sampleState⟩

/-- C6: in an accepted batch the rows of the other persons are the same under
every value of `flip_` as under profile 1: one row
`(counter_, track_id + 1, normalised y, normalised x, corrected linear.x,
corrected linear.y, orientation.z, orientation.w, 0, 0)` for each person inside
the local zone; the `switch` does not touch them and their goal fields are 0. -/
theorem neighbor_rows_not_flipped (L : Libm α) (s : State α) (robot : TrackedPerson α)
    (rest : List (TrackedPerson α)) (f : Int) (h : accepts s = true) :
    ∃ (s1 sf : State α) (ego1 egof : Row α) (others : List (Row α)),
      callbackTrackedPersons L { s with flip_ := 1 } (robot :: rest) = some s1 ∧
      callbackTrackedPersons L { s with flip_ := f } (robot :: rest) = some sf ∧
      s1.dataset_ = s.dataset_ ++ ego1 :: others ∧
      sf.dataset_ = s.dataset_ ++ egof :: others ∧
      others =
        (rest.filter (fun p => inLocalZone sf (p.position_x, p.position_y))).map
          (fun (p : TrackedPerson α) => ({
              frame := s.counter_
              ped := p.track_id + 1
              pos_y := 2 * p.position_y / s.global_height_ - 1
              pos_x := 2 * p.position_x / s.global_width_ - 1
              twist_x := if p.linear_x > 10 then p.linear_x / 1000 else p.linear_x
              twist_y := if p.linear_y > 10 then p.linear_y / 1000 else p.linear_y
              or_z := p.orientation_z
              or_w := p.orientation_w
              goal_x := 0
              goal_y := 0 } : Row α)) := by
  have h1 : accepts { s with flip_ := 1 } = true := h
  have hf : accepts { s with flip_ := f } = true := h
  rw [callbackTrackedPersons_cons, callbackTrackedPersons_cons, if_pos h1, if_pos hf]
  exact ⟨_, _, _, _, _, rfl, rfl, rfl, rfl, rfl⟩

/-- C6 at a concrete input: `sampleState`, `sampleRobot` and `samplePerson`
over the reals, profile 3 against profile 1. -/
theorem neighbor_rows_not_flipped_witness :
    accepts (sampleState : State ℝ) = true ∧
    ∃ (s1 sf : State ℝ) (ego1 egof : Row ℝ) (others : List (Row ℝ)),
      callbackTrackedPersons realLibm { (sampleState : State ℝ) with flip_ := 1 }
        (sampleRobot :: [samplePerson]) = some s1 ∧
      callbackTrackedPersons realLibm { (sampleState : State ℝ) with flip_ := 3 }
        (sampleRobot :: [samplePerson]) = some sf ∧
      s1.dataset_ = (sampleState : State ℝ).dataset_ ++ ego1 :: others ∧
      sf.dataset_ = (sampleState : State ℝ).dataset_ ++ egof :: others ∧
      others =
        (List.filter (fun p => inLocalZone sf (p.position_x, p.position_y))
          [samplePerson]).map
          (fun (p : TrackedPerson ℝ) => ({
              frame := (sampleState : State ℝ).counter_
              ped := p.track_id + 1
              pos_y := 2 * p.position_y / (sampleState : State ℝ).global_height_ - 1
              pos_x := 2 * p.position_x / (sampleState : State ℝ).global_width_ - 1
              twist_x := if p.linear_x > 10 then p.linear_x / 1000 else p.linear_x
              twist_y := if p.linear_y > 10 then p.linear_y / 1000 else p.linear_y
              or_z := p.orientation_z
              or_w := p.orientation_w
              goal_x := 0
              goal_y := 0 } : Row ℝ)) :=
  ⟨accepts_sampleState,
    neighbor_rows_not_flipped realLibm sampleState sampleRobot [samplePerson] 3
      accepts_sampleState⟩

/-- C8: an accepted batch appends, after the rows already written, exactly the
robot row followed by one row for each later observation that `inLocalZone`
accepts against the position of this batch's robot, in batch order, which is
`1 + k` rows for `k` such observations; a rejected batch appends nothing. -/
theorem rows_appended (L : Libm α) (s : State α) (robot : TrackedPerson α)
    (rest : List (TrackedPerson α)) :
    ∃ (s' : State α) (new : List (Row α)),
      callbackTrackedPersons L s (robot :: rest) = some s' ∧
      s'.dataset_ = s.dataset_ ++ new ∧
      new =
        (if accepts s = true then
          egoRow s robot
            (flipSwitch L s.flip_ (L.atan2 robot.orientation_z robot.orientation_w)
              (egoBefore s robot)) ::
          (rest.filter (fun p =>
            inLocalZone { s with robot_position_ := (robot.position_x, robot.position_y) }
              (p.position_x, p.position_y))).map (personRow s)
        else []) ∧
      new.length =
        (if accepts s = true then
          1 + (rest.filter (fun p =>
            inLocalZone { s with robot_position_ := (robot.position_x, robot.position_y) }
              (p.position_x, p.position_y))).length
        else 0) := by
  rw [callbackTrackedPersons_cons]
  by_cases h : accepts s = true
  · simp only [if_pos h]
    refine ⟨_, _, rfl, rfl, rfl, ?_⟩
    simp [Nat.add_comm]
  · simp only [if_neg h]
    exact ⟨_, [], rfl, by simp, rfl, rfl⟩

/-- The frames and the counter of a run when the counter is not bounded: the
counter is the number of accepted batches, and a batch that comes after `k`
accepted ones writes `k` on every row it appends. -/
theorem frame_counter_exact (L : Libm α) (lw lh gw gh size : α) (flip : Int)
    (evs : List (Event α)) (hne : ∀ ev ∈ evs, ev ≠ Event.tracked []) :
    ∃ sN, deliver L (init lw lh gw gh size flip) evs = some sN ∧
      sN.counter_ = (countAccepted L (init lw lh gw gh size flip) evs : Int) ∧
      countAccepted L (init lw lh gw gh size flip) evs ≤ evs.length ∧
      ∀ pre tracks post, evs = pre ++ Event.tracked tracks :: post →
        ∃ (s s' : State α) (new : List (Row α)),
          deliver L (init lw lh gw gh size flip) pre = some s ∧
          callbackTrackedPersons L s tracks = some s' ∧
          s.counter_ = (countAccepted L (init lw lh gw gh size flip) pre : Int) ∧
          s'.dataset_ = s.dataset_ ++ new ∧
          (∀ r ∈ new, r.frame = (countAccepted L (init lw lh gw gh size flip) pre : Int)) ∧
          (if accepts s = true then
            new ≠ [] ∧ s'.counter_ = s.counter_ + 1 ∧
              countAccepted L (init lw lh gw gh size flip) (pre ++ [Event.tracked tracks]) =
                countAccepted L (init lw lh gw gh size flip) pre + 1
          else
            new = [] ∧ s'.counter_ = s.counter_ ∧
              countAccepted L (init lw lh gw gh size flip) (pre ++ [Event.tracked tracks]) =
                countAccepted L (init lw lh gw gh size flip) pre) := by
  obtain ⟨sN, hN, hcN⟩ := deliver_counter L evs (init lw lh gw gh size flip) hne
  refine ⟨sN, hN, by simpa [init] using hcN, countAccepted_le_length L evs _, ?_⟩
  intro pre tracks post hsplit
  have hpre : ∀ ev ∈ pre, ev ≠ Event.tracked [] := fun ev hev =>
    hne ev (by rw [hsplit]; exact List.mem_append_left _ hev)
  have htr : Event.tracked tracks ≠ Event.tracked [] :=
    hne _ (by rw [hsplit]; exact List.mem_append_right _ (List.mem_cons_self _ _))
  obtain ⟨s, hs, hcs⟩ := deliver_counter L pre (init lw lh gw gh size flip) hpre
  have hcs' : s.counter_ = (countAccepted L (init lw lh gw gh size flip) pre : Int) := by
    simpa [init] using hcs
  cases tracks with
  | nil => exact absurd rfl htr
  | cons robot rest =>
    have hcb := callbackTrackedPersons_cons L s robot rest
    by_cases h : accepts s = true
    · rw [if_pos h] at hcb
      refine ⟨s, _, _, hs, hcb, hcs', rfl, ?_, ?_⟩
      · intro r hr
        rw [← hcs']
        rcases List.mem_cons.mp hr with rfl | hr
        · rfl
        · exact mem_personRow_frame s _ r hr
      · rw [if_pos h]
        refine ⟨List.cons_ne_nil _ _, rfl, ?_⟩
        rw [countAccepted_append, hs]
        simp only [countAccepted, acceptedNow, h, if_true, Nat.add_right_inj]
        cases dispatch L s (Event.tracked (robot :: rest)) <;> rfl
    · rw [if_neg h] at hcb
      refine ⟨s, _, [], hs, hcb, hcs', by simp, ?_, ?_⟩
      · intro r hr
        cases hr
      · rw [if_neg h]
        refine ⟨rfl, rfl, ?_⟩
        rw [countAccepted_append, hs]
        simp only [countAccepted, acceptedNow, h, Nat.add_right_inj]
        cases dispatch L s (Event.tracked (robot :: rest)) <;> rfl

/-- C7, as stated, fails on the 32-bit counter: with the default parameters,
after the goal update (3, 3) and 2147483648 accepted batches the counter holds
-2147483648, not the number of accepted batches, so the last of them did not
add 1 to it, and the next accepted batch writes the frame -2147483648. -/
theorem frame_counter_wraps :
    ∃ s s' row,
      deliver32 realLibm (initDefault : State ℝ)
        (Event.goal 3 3 :: List.replicate 2147483648 (Event.tracked [sampleRobot])) =
          some s ∧
      countAccepted realLibm (initDefault : State ℝ)
        (Event.goal 3 3 :: List.replicate 2147483648 (Event.tracked [sampleRobot])) =
          2147483648 ∧
      s.counter_ = -2147483648 ∧
      callbackTrackedPersons32 realLibm s [sampleRobot] = some s' ∧
      s'.dataset_ = s.dataset_ ++ [row] ∧ row.frame = -2147483648 := by
  have hacc : accepts (callbackRobotGoal (initDefault : State ℝ) 3 3) = true :=
    accepts_sampleState
  obtain ⟨s, hs, hc, ha⟩ := deliver32_replicate realLibm sampleRobot [] 2147483648
    (callbackRobotGoal (initDefault : State ℝ) 3 3) hacc rfl
  have hcount := countAccepted_replicate realLibm sampleRobot [] 2147483648
    (callbackRobotGoal (initDefault : State ℝ) 3 3) hacc
  have hc' : s.counter_ = -2147483648 := by
    rw [hc]
    rfl
  have hstep : callbackTrackedPersons32 realLibm s [sampleRobot] =
      some { s with
        robot_position_ := ((sampleRobot : TrackedPerson ℝ).position_x,
          (sampleRobot : TrackedPerson ℝ).position_y)
        counter_ := toInt32 (s.counter_ + 1)
        dataset_ := s.dataset_ ++
          [egoRow s sampleRobot (flipSwitch realLibm s.flip_
            (realLibm.atan2 (sampleRobot : TrackedPerson ℝ).orientation_z
              (sampleRobot : TrackedPerson ℝ).orientation_w) (egoBefore s sampleRobot))] } := by
    simp only [callbackTrackedPersons32]
    rw [callbackTrackedPersons_cons, if_pos ha]
    rfl
  refine ⟨s, _, _, ?_, ?_, hc', hstep, rfl, hc'⟩
  · rw [deliver32_cons_goal]
    exact hs
  · rw [countAccepted_cons_goal]
    exact hcount

/-- C7, amended: from the constructor's state, for every sequence of goal
updates and non-empty batches in which fewer than 2147483648 batches are
accepted (the range of the `int` counter), the callbacks all return and the
final counter is the number of accepted batches (at most the number of inputs);
a batch that comes after `k` accepted ones finds the counter at `k`, writes `k`
as the frame of every row it appends, and leaves the counter at `k + 1` when it
is accepted (it then appends at least one row and is counted) and at `k` when
it is rejected (it then appends none and is not counted). -/
theorem frame_counter (L : Libm α) (lw lh gw gh size : α) (flip : Int)
    (evs : List (Event α)) (hne : ∀ ev ∈ evs, ev ≠ Event.tracked [])
    (hbound : countAccepted L (init lw lh gw gh size flip) evs < 2147483648) :
    ∃ sN, deliver32 L (init lw lh gw gh size flip) evs = some sN ∧
      sN.counter_ = (countAccepted L (init lw lh gw gh size flip) evs : Int) ∧
      countAccepted L (init lw lh gw gh size flip) evs ≤ evs.length ∧
      ∀ pre tracks post, evs = pre ++ Event.tracked tracks :: post →
        ∃ (s s' : State α) (new : List (Row α)),
          deliver32 L (init lw lh gw gh size flip) pre = some s ∧
          callbackTrackedPersons32 L s tracks = some s' ∧
          s.counter_ = (countAccepted L (init lw lh gw gh size flip) pre : Int) ∧
          s'.dataset_ = s.dataset_ ++ new ∧
          (∀ r ∈ new, r.frame = (countAccepted L (init lw lh gw gh size flip) pre : Int)) ∧
          (if accepts s = true then
            new ≠ [] ∧ s'.counter_ = s.counter_ + 1 ∧
              countAccepted L (init lw lh gw gh size flip) (pre ++ [Event.tracked tracks]) =
                countAccepted L (init lw lh gw gh size flip) pre + 1
          else
            new = [] ∧ s'.counter_ = s.counter_ ∧
              countAccepted L (init lw lh gw gh size flip) (pre ++ [Event.tracked tracks]) =
                countAccepted L (init lw lh gw gh size flip) pre) := by
  obtain ⟨sN, hN, hcN, hlen, hsplit⟩ := frame_counter_exact L lw lh gw gh size flip evs hne
  have h0 : (0 : Int) ≤ (init lw lh gw gh size flip).counter_ := le_refl _
  have hz : (init lw lh gw gh size flip).counter_ = 0 := rfl
  have h32 := deliver32_eq L evs (init lw lh gw gh size flip) h0 (by rw [hz]; omega)
  refine ⟨sN, h32.trans hN, hcN, hlen, ?_⟩
  intro pre tracks post hev
  obtain ⟨s, s', new, hs, hcb, hcs, hds, hfr, hif⟩ := hsplit pre tracks post hev
  have hle : countAccepted L (init lw lh gw gh size flip) pre +
      acceptedNow s (Event.tracked tracks) ≤
      countAccepted L (init lw lh gw gh size flip) evs := by
    rw [hev, countAccepted_append, hs]
    exact Nat.add_le_add_left (Nat.le_add_right _ _) _
  have hpre := deliver32_eq L pre (init lw lh gw gh size flip) h0 (by rw [hz]; omega)
  have hstep : callbackTrackedPersons32 L s tracks = callbackTrackedPersons L s tracks :=
    dispatch32_eq L s (Event.tracked tracks) (by rw [hcs]; omega) (by rw [hcs]; omega)
  exact ⟨s, s', new, hpre.trans hs, hstep.trans hcb, hcs, hds, hfr, hif⟩

/-- C7, amended, at a concrete input: the default parameters over the reals
and the inputs batch, goal (3, 3), batch. -/
theorem frame_counter_witness :
    ((∀ ev ∈ [Event.tracked [(sampleRobot : TrackedPerson ℝ)], Event.goal 3 3,
        Event.tracked [sampleRobot, samplePerson]], ev ≠ Event.tracked []) ∧
      countAccepted realLibm (init (12 : ℝ) 12 50 50 100 1)
        [Event.tracked [sampleRobot], Event.goal 3 3,
          Event.tracked [sampleRobot, samplePerson]] < 2147483648) ∧
    ∃ sN, deliver32 realLibm (init (12 : ℝ) 12 50 50 100 1)
        [Event.tracked [sampleRobot], Event.goal 3 3,
          Event.tracked [sampleRobot, samplePerson]] = some sN ∧
      sN.counter_ = (countAccepted realLibm (init (12 : ℝ) 12 50 50 100 1)
        [Event.tracked [sampleRobot], Event.goal 3 3,
          Event.tracked [sampleRobot, samplePerson]] : Int) ∧
      countAccepted realLibm (init (12 : ℝ) 12 50 50 100 1)
        [Event.tracked [sampleRobot], Event.goal 3 3,
          Event.tracked [sampleRobot, samplePerson]] ≤
        [Event.tracked [(sampleRobot : TrackedPerson ℝ)], Event.goal 3 3,
          Event.tracked [sampleRobot, samplePerson]].length ∧
      ∀ pre tracks post,
        [Event.tracked [(sampleRobot : TrackedPerson ℝ)], Event.goal 3 3,
          Event.tracked [sampleRobot, samplePerson]] = pre ++ Event.tracked tracks :: post →
        ∃ (s s' : State ℝ) (new : List (Row ℝ)),
          deliver32 realLibm (init (12 : ℝ) 12 50 50 100 1) pre = some s ∧
          callbackTrackedPersons32 realLibm s tracks = some s' ∧
          s.counter_ = (countAccepted realLibm (init (12 : ℝ) 12 50 50 100 1) pre : Int) ∧
          s'.dataset_ = s.dataset_ ++ new ∧
          (∀ r ∈ new,
            r.frame = (countAccepted realLibm (init (12 : ℝ) 12 50 50 100 1) pre : Int)) ∧
          (if accepts s = true then
            new ≠ [] ∧ s'.counter_ = s.counter_ + 1 ∧
              countAccepted realLibm (init (12 : ℝ) 12 50 50 100 1)
                  (pre ++ [Event.tracked tracks]) =
                countAccepted realLibm (init (12 : ℝ) 12 50 50 100 1) pre + 1
          else
            new = [] ∧ s'.counter_ = s.counter_ ∧
              countAccepted realLibm (init (12 : ℝ) 12 50 50 100 1)
                  (pre ++ [Event.tracked tracks]) =
                countAccepted realLibm (init (12 : ℝ) 12 50 50 100 1) pre) :=
  have hne : ∀ ev ∈ [Event.tracked [(sampleRobot : TrackedPerson ℝ)], Event.goal 3 3,
      Event.tracked [sampleRobot, samplePerson]], ev ≠ Event.tracked [] := by
    intro ev hev
    simp only [List.mem_cons, List.mem_singleton, List.not_mem_nil, or_false] at hev
    rcases hev with rfl | rfl | rfl <;> simp
  have hbound : countAccepted realLibm (init (12 : ℝ) 12 50 50 100 1)
      [Event.tracked [sampleRobot], Event.goal 3 3,
        Event.tracked [sampleRobot, samplePerson]] < 2147483648 :=
    lt_of_le_of_lt (countAccepted_le_length realLibm _ _) (by norm_num)
  ⟨⟨hne, hbound⟩, frame_counter realLibm 12 12 50 50 100 1 _ hne hbound⟩

/-! ## The algebra of the `switch` -/

/-- C12: from the constructor's state (goal (0, 0)), whatever the global
extents, every sequence of non-empty batches with no goal update is processed
with no row written and the counter still 0; and with global extents 50 x 50,
a goal update at (5, 5) (normalised to -0.8) after them makes the next batch
accepted: it writes the robot row and then one row per person inside the local
zone, all with frame 0, and the counter becomes 1. -/
theorem no_rows_before_goal (L : Libm α) (lw lh gw gh size : α) (flip : Int)
    (batches : List (List (TrackedPerson α))) (robot : TrackedPerson α)
    (rest : List (TrackedPerson α)) (hne : ∀ b ∈ batches, b ≠ []) :
    (∃ s, deliver L (init lw lh gw gh size flip) (batches.map Event.tracked) = some s ∧
      s.dataset_ = [] ∧ s.counter_ = 0) ∧
    (∃ s', deliver L (init lw lh 50 50 size flip)
        (batches.map Event.tracked ++ [Event.goal 5 5, Event.tracked (robot :: rest)]) =
          some s' ∧
      s'.counter_ = 1 ∧
      (egoBefore (callbackRobotGoal (init lw lh 50 50 size flip) 5 5) robot).goal_x = -0.8 ∧
      (egoBefore (callbackRobotGoal (init lw lh 50 50 size flip) 5 5) robot).goal_y = -0.8 ∧
      s'.dataset_ =
        egoRow (callbackRobotGoal (init lw lh 50 50 size flip) 5 5) robot
          (flipSwitch L flip (L.atan2 robot.orientation_z robot.orientation_w)
            (egoBefore (callbackRobotGoal (init lw lh 50 50 size flip) 5 5) robot)) ::
        (rest.filter (fun p => inLocalZone s' (p.position_x, p.position_y))).map
          (personRow (callbackRobotGoal (init lw lh 50 50 size flip) 5 5)) ∧
      ∀ r ∈ s'.dataset_, r.frame = 0) := by
  constructor
  · obtain ⟨pos, hpos⟩ := deliver_rejected L batches (init lw lh gw gh size flip) hne
      (accepts_goal_zero _ rfl)
    exact ⟨_, hpos, rfl, rfl⟩
  · obtain ⟨pos, hpos⟩ := deliver_rejected L batches (init lw lh 50 50 size flip) hne
      (accepts_goal_zero _ rfl)
    have hacc : accepts (callbackRobotGoal
        { init lw lh 50 50 size flip with robot_position_ := pos } 5 5) = true := by
      simp only [accepts, callbackRobotGoal, init, decide_eq_true_eq]
      norm_num
    have hrun : deliver L (init lw lh 50 50 size flip)
        (batches.map Event.tracked ++ [Event.goal 5 5, Event.tracked (robot :: rest)]) =
        callbackTrackedPersons L
          (callbackRobotGoal { init lw lh 50 50 size flip with robot_position_ := pos } 5 5)
          (robot :: rest) := by
      rw [deliver_append, hpos]
      simp only [Option.some_bind, deliver, dispatch]
      cases callbackTrackedPersons L
        (callbackRobotGoal { init lw lh 50 50 size flip with robot_position_ := pos } 5 5)
        (robot :: rest) <;> rfl
    rw [hrun, callbackTrackedPersons_cons, if_pos hacc]
    refine ⟨_, rfl, ?_, ?_, ?_, rfl, ?_⟩
    · simp [callbackRobotGoal, init]
    · simp only [egoBefore, callbackRobotGoal, init]
      norm_num
    · simp only [egoBefore, callbackRobotGoal, init]
      norm_num
    · intro r hr
      rcases List.mem_cons.mp hr with rfl | hr
      · rfl
      · exact mem_personRow_frame _ _ r hr

/-- C12 at a concrete input: the default parameters over the reals, two batches
before the goal update, then `sampleRobot` with `samplePerson`. -/
theorem no_rows_before_goal_witness :
    (∀ b ∈ [[(sampleRobot : TrackedPerson ℝ)], [sampleRobot, samplePerson]], b ≠ []) ∧
    ((∃ s, deliver realLibm (init (12 : ℝ) 12 50 50 100 1)
        ([[sampleRobot], [sampleRobot, samplePerson]].map Event.tracked) = some s ∧
      s.dataset_ = [] ∧ s.counter_ = 0) ∧
    (∃ s', deliver realLibm (init (12 : ℝ) 12 50 50 100 1)
        ([[sampleRobot], [sampleRobot, samplePerson]].map Event.tracked ++
          [Event.goal 5 5, Event.tracked (sampleRobot :: [samplePerson])]) = some s' ∧
      s'.counter_ = 1 ∧
      (egoBefore (callbackRobotGoal (init (12 : ℝ) 12 50 50 100 1) 5 5) sampleRobot).goal_x =
        -0.8 ∧
      (egoBefore (callbackRobotGoal (init (12 : ℝ) 12 50 50 100 1) 5 5) sampleRobot).goal_y =
        -0.8 ∧
      s'.dataset_ =
        egoRow (callbackRobotGoal (init (12 : ℝ) 12 50 50 100 1) 5 5) sampleRobot
          (flipSwitch realLibm 1
            (realLibm.atan2 (sampleRobot : TrackedPerson ℝ).orientation_z
              (sampleRobot : TrackedPerson ℝ).orientation_w)
            (egoBefore (callbackRobotGoal (init (12 : ℝ) 12 50 50 100 1) 5 5) sampleRobot)) ::
        (List.filter (fun p => inLocalZone s' (p.position_x, p.position_y))
          [samplePerson]).map
          (personRow (callbackRobotGoal (init (12 : ℝ) 12 50 50 100 1) 5 5)) ∧
      ∀ r ∈ s'.dataset_, r.frame = 0)) :=
  have hne : ∀ b ∈ [[(sampleRobot : TrackedPerson ℝ)], [sampleRobot, samplePerson]],
      b ≠ [] := by
    intro b hb
    simp only [List.mem_cons, List.mem_singleton, List.not_mem_nil, or_false] at hb
    rcases hb with rfl | rfl <;> simp
  ⟨hne, no_rows_before_goal realLibm 12 12 50 50 100 1 _ sampleRobot [samplePerson] hne⟩

/-- C13: with the default parameters, from the constructor's state: a first
batch (before any goal) writes nothing and leaves the counter at 0; after the
goal update (3, 3), a batch with the robot at (1, 1) and one person inside the
local zone writes 2 rows with frame 0 and leaves the counter at 1; a further
batch with the robot at (1, 1) and one person inside the local zone writes 2
rows with frame 1 and leaves the counter at 2; 4 rows are written in all. -/
theorem end_to_end (L : Libm α) (robot1 : TrackedPerson α) (rest1 : List (TrackedPerson α))
    (r2 n2 r3 n3 : TrackedPerson α)
    (hx2 : r2.position_x = 1) (hy2 : r2.position_y = 1)
    (hx3 : r3.position_x = 1) (hy3 : r3.position_y = 1)
    (hn2 : inLocalZone { (initDefault : State α) with robot_position_ := (1, 1) }
      (n2.position_x, n2.position_y) = true)
    (hn3 : inLocalZone { (initDefault : State α) with robot_position_ := (1, 1) }
      (n3.position_x, n3.position_y) = true) :
    ∃ (s1 s2 s3 : State α) (new2 new3 : List (Row α)),
      deliver L initDefault [Event.tracked (robot1 :: rest1)] = some s1 ∧
      s1.dataset_ = [] ∧ s1.counter_ = 0 ∧
      deliver L s1 [Event.goal 3 3, Event.tracked [r2, n2]] = some s2 ∧
      s2.dataset_ = new2 ∧ new2.length = 2 ∧ (∀ r ∈ new2, r.frame = 0) ∧ s2.counter_ = 1 ∧
      deliver L s2 [Event.tracked [r3, n3]] = some s3 ∧
      s3.dataset_ = new2 ++ new3 ∧ new3.length = 2 ∧ (∀ r ∈ new3, r.frame = 1) ∧
      s3.counter_ = 2 ∧ s3.dataset_.length = 4 ∧
      deliver L initDefault
        [Event.tracked (robot1 :: rest1), Event.goal 3 3, Event.tracked [r2, n2],
          Event.tracked [r3, n3]] = some s3 := by
  -- the first batch is rejected
  have hrej : ¬ accepts (initDefault : State α) = true := by
    rw [accepts_goal_zero _ rfl]
    simp
  have e1 : callbackTrackedPersons L (initDefault : State α) (robot1 :: rest1) =
      some { (initDefault : State α) with
        robot_position_ := (robot1.position_x, robot1.position_y) } := by
    rw [callbackTrackedPersons_cons, if_neg hrej]
  -- the goal update opens the gate
  have hacc : ∀ (pos : α × α) (c : Int) (d : List (Row α)),
      accepts { (initDefault : State α) with
        robot_position_ := pos, robot_goal_ := (3, 3), counter_ := c, dataset_ := d } = true := by
    intro pos c d
    simp only [accepts, initDefault, init, decide_eq_true_eq]
    norm_num
  have hzone : ∀ (pos : α × α) (c : Int) (d : List (Row α)) (r n : TrackedPerson α),
      r.position_x = 1 → r.position_y = 1 →
      inLocalZone { (initDefault : State α) with robot_position_ := (1, 1) }
        (n.position_x, n.position_y) = true →
      List.filter (fun p => inLocalZone
        { ({ (initDefault : State α) with
            robot_position_ := pos, robot_goal_ := (3, 3), counter_ := c, dataset_ := d }) with
          robot_position_ := (r.position_x, r.position_y) }
        (p.position_x, p.position_y)) [n] = [n] := by
    intro pos c d r n hx hy hn
    have : inLocalZone
        { ({ (initDefault : State α) with
            robot_position_ := pos, robot_goal_ := (3, 3), counter_ := c, dataset_ := d }) with
          robot_position_ := (r.position_x, r.position_y) }
        (n.position_x, n.position_y) = true := by
      rw [← hn]
      exact inLocalZone_congr _ _ _ (by simp [hx, hy]) rfl rfl
    simp [List.filter, this]
  have e2 := callbackTrackedPersons_cons L
    { (initDefault : State α) with
      robot_position_ := (robot1.position_x, robot1.position_y), robot_goal_ := (3, 3),
      counter_ := 0, dataset_ := [] } r2 [n2]
  rw [if_pos (hacc _ _ _), hzone _ _ _ r2 n2 hx2 hy2 hn2] at e2
  have e3 := callbackTrackedPersons_cons L
    { (initDefault : State α) with
      robot_position_ := (r2.position_x, r2.position_y), robot_goal_ := (3, 3),
      counter_ := 0 + 1,
      dataset_ := [] ++ egoRow
        { (initDefault : State α) with
          robot_position_ := (robot1.position_x, robot1.position_y), robot_goal_ := (3, 3),
          counter_ := 0, dataset_ := [] } r2
        (flipSwitch L 1 (L.atan2 r2.orientation_z r2.orientation_w)
          (egoBefore { (initDefault : State α) with
            robot_position_ := (robot1.position_x, robot1.position_y), robot_goal_ := (3, 3),
            counter_ := 0, dataset_ := [] } r2)) ::
        List.map (personRow { (initDefault : State α) with
          robot_position_ := (robot1.position_x, robot1.position_y), robot_goal_ := (3, 3),
          counter_ := 0, dataset_ := [] }) [n2] } r3 [n3]
  rw [if_pos (hacc _ _ _), hzone _ _ _ r3 n3 hx3 hy3 hn3] at e3
  have h1 := (deliver_single L initDefault (Event.tracked (robot1 :: rest1))).trans e1
  have h2 := (deliver_goal_tracked L
    { (initDefault : State α) with
      robot_position_ := (robot1.position_x, robot1.position_y) } 3 3 [r2, n2]).trans e2
  have h3 := (deliver_single L _ (Event.tracked [r3, n3])).trans e3
  refine ⟨_, _, _, _, _, h1, rfl, rfl, h2, rfl, by simp, ?_, by simp, h3, rfl, by simp, ?_,
    by simp, by simp, ?_⟩
  · intro r hr
    simp only [List.nil_append, List.map_cons, List.map_nil, List.mem_cons,
      List.not_mem_nil, or_false] at hr
    rcases hr with rfl | rfl <;> rfl
  · intro r hr
    simp only [List.map_cons, List.map_nil, List.mem_cons, List.not_mem_nil, or_false] at hr
    rcases hr with rfl | rfl <;> simp [egoRow, personRow]
  · exact (deliver_cons_of_eq L _ _ (Event.tracked (robot1 :: rest1)) _ e1).trans
      ((deliver_cons_of_eq L _ _ (Event.goal 3 3) _ rfl).trans
        ((deliver_cons_of_eq L _ _ (Event.tracked [r2, n2]) _ e2).trans h3))

/-- C13 at a concrete input: over the reals, `sampleRobot` alone, the goal
update, then twice `sampleRobot` with `samplePerson`. -/
theorem end_to_end_witness :
    ((sampleRobot : TrackedPerson ℝ).position_x = 1 ∧
      (sampleRobot : TrackedPerson ℝ).position_y = 1 ∧
      inLocalZone { (initDefault : State ℝ) with robot_position_ := (1, 1) }
        ((samplePerson : TrackedPerson ℝ).position_x,
          (samplePerson : TrackedPerson ℝ).position_y) = true) ∧
    ∃ (s1 s2 s3 : State ℝ) (new2 new3 : List (Row ℝ)),
      deliver realLibm initDefault [Event.tracked (sampleRobot :: [])] = some s1 ∧
      s1.dataset_ = [] ∧ s1.counter_ = 0 ∧
      deliver realLibm s1 [Event.goal 3 3, Event.tracked [sampleRobot, samplePerson]] =
        some s2 ∧
      s2.dataset_ = new2 ∧ new2.length = 2 ∧ (∀ r ∈ new2, r.frame = 0) ∧ s2.counter_ = 1 ∧
      deliver realLibm s2 [Event.tracked [sampleRobot, samplePerson]] = some s3 ∧
      s3.dataset_ = new2 ++ new3 ∧ new3.length = 2 ∧ (∀ r ∈ new3, r.frame = 1) ∧
      s3.counter_ = 2 ∧ s3.dataset_.length = 4 ∧
      deliver realLibm initDefault
        [Event.tracked (sampleRobot :: []), Event.goal 3 3,
          Event.tracked [sampleRobot, samplePerson],
          Event.tracked [sampleRobot, samplePerson]] = some s3 :=
  have hzone : inLocalZone { (initDefault : State ℝ) with robot_position_ := (1, 1) }
      ((samplePerson : TrackedPerson ℝ).position_x,
        (samplePerson : TrackedPerson ℝ).position_y) = true := by
    simp only [inLocalZone, initDefault, init, samplePerson]
    norm_num
  ⟨⟨rfl, rfl, hzone⟩,
    end_to_end realLibm sampleRobot [] sampleRobot samplePerson sampleRobot samplePerson
      rfl rfl rfl rfl hzone hzone⟩

/-- C14, as stated, fails under a flip: with the default extents and profile 3,
after the goal update (3, 3), whose normalised value is (-0.88, -0.88), the
robot row of the next batch carries the goal fields (1.88, 1.88). -/
theorem goal_row_is_flipped :
    ∃ s', callbackTrackedPersons realLibm
        (callbackRobotGoal { (initDefault : State ℝ) with flip_ := 3 } 3 3)
        [sampleRobot] = some s' ∧
      s'.dataset_.map (fun r => (r.goal_x, r.goal_y)) = [(1.88, 1.88)] ∧
      (2 * 3 / 50 - 1 : ℝ) = -0.88 ∧ (1.88 : ℝ) ≠ -0.88 := by
  have hacc : accepts (callbackRobotGoal { (initDefault : State ℝ) with flip_ := 3 } 3 3) =
      true := accepts_sampleState
  rw [callbackTrackedPersons_cons, if_pos hacc]
  refine ⟨_, rfl, ?_, by norm_num, by norm_num⟩
  simp only [callbackRobotGoal, initDefault, init, egoRow, egoBefore, flipSwitch_three,
    List.filter, List.map, List.nil_append]
  norm_num

/-- C14, amended: `callbackRobotGoal` sets the cached goal to `(x, y)` and
leaves every other member as it was: no row is written and the counter and the
cached robot position are unchanged.  The next batch is then gated on the goal
normalised from `(x, y)` and, when accepted, its robot row carries that
normalised pair `(gx, gy) = (2 * x / width - 1, 2 * y / height - 1)` after the
map of the flip profile: `(gx, gy)` under profile 1, `(gy, 1 - gx)` under
profile 2, `(1 - gx, 1 - gy)` under profile 3 and `(1 - gy, gx)` under
profile 4. -/
theorem goal_update (L : Libm α) (s : State α) (x y : α) (robot : TrackedPerson α)
    (rest : List (TrackedPerson α)) :
    callbackRobotGoal s x y = { s with robot_goal_ := (x, y) } ∧
    (callbackRobotGoal s x y).robot_goal_ = (x, y) ∧
    (callbackRobotGoal s x y).dataset_ = s.dataset_ ∧
    (callbackRobotGoal s x y).counter_ = s.counter_ ∧
    (callbackRobotGoal s x y).robot_position_ = s.robot_position_ ∧
    ∃ s', callbackTrackedPersons L (callbackRobotGoal s x y) (robot :: rest) = some s' ∧
      if 2 * x / s.global_width_ - 1 > -0.99 ∨ 2 * y / s.global_height_ - 1 > -0.99 then
        ∃ (e : Ego α) (ego : Row α) (others : List (Row α)),
          s'.dataset_ = s.dataset_ ++ ego :: others ∧
          e.goal_x = 2 * x / s.global_width_ - 1 ∧
          e.goal_y = 2 * y / s.global_height_ - 1 ∧
          ego = egoRow s robot
            (flipSwitch L s.flip_ (L.atan2 robot.orientation_z robot.orientation_w) e) ∧
          (s.flip_ = 1 →
            ego.goal_x = 2 * x / s.global_width_ - 1 ∧
            ego.goal_y = 2 * y / s.global_height_ - 1) ∧
          (s.flip_ = 2 →
            ego.goal_x = 2 * y / s.global_height_ - 1 ∧
            ego.goal_y = 1 - (2 * x / s.global_width_ - 1)) ∧
          (s.flip_ = 3 →
            ego.goal_x = 1 - (2 * x / s.global_width_ - 1) ∧
            ego.goal_y = 1 - (2 * y / s.global_height_ - 1)) ∧
          (s.flip_ = 4 →
            ego.goal_x = 1 - (2 * y / s.global_height_ - 1) ∧
            ego.goal_y = 2 * x / s.global_width_ - 1)
      else s'.dataset_ = s.dataset_ := by
  refine ⟨rfl, rfl, rfl, rfl, rfl, ?_⟩
  rw [callbackTrackedPersons_cons]
  by_cases hg : 2 * x / s.global_width_ - 1 > -0.99 ∨ 2 * y / s.global_height_ - 1 > -0.99
  · have hacc : accepts (callbackRobotGoal s x y) = true := by
      simp only [accepts, callbackRobotGoal, decide_eq_true_eq]
      exact hg
    rw [if_pos hacc]
    refine ⟨_, rfl, ?_⟩
    rw [if_pos hg]
    refine ⟨egoBefore (callbackRobotGoal s x y) robot, _, _, rfl, rfl, rfl, rfl, ?_, ?_, ?_, ?_⟩
    · intro hf
      have hf' : (callbackRobotGoal s x y).flip_ = 1 := hf
      simp only [hf', flipSwitch_one]
      exact ⟨rfl, rfl⟩
    · intro hf
      have hf' : (callbackRobotGoal s x y).flip_ = 2 := hf
      simp only [hf', flipSwitch_two]
      exact ⟨rfl, rfl⟩
    · intro hf
      have hf' : (callbackRobotGoal s x y).flip_ = 3 := hf
      simp only [hf', flipSwitch_three]
      exact ⟨rfl, rfl⟩
    · intro hf
      have hf' : (callbackRobotGoal s x y).flip_ = 4 := hf
      simp only [hf', flipSwitch_four]
      exact ⟨rfl, rfl⟩
  · have hacc : ¬ accepts (callbackRobotGoal s x y) = true := by
      simp only [accepts, callbackRobotGoal, decide_eq_true_eq]
      exact hg
    rw [if_neg hacc]
    refine ⟨_, rfl, ?_⟩
    rw [if_neg hg]
    rfl

/-- C18: after any batch `robot :: rest`, accepted or rejected, the cached
robot position is the raw position of `robot` and the cached goal is the one
cached before; an accepted batch keeps exactly the later observations `p` with
`max (|robot.x - p.x| - local_width / 2) (|robot.y - p.y| - local_height / 2)
<= -0.00001`, and the position cached before the batch plays no part in the
result. -/
theorem position_cached (L : Libm α) (s : State α) (robot : TrackedPerson α)
    (rest : List (TrackedPerson α)) :
    ∃ (s' : State α) (new : List (Row α)),
      callbackTrackedPersons L s (robot :: rest) = some s' ∧
      s'.robot_position_ = (robot.position_x, robot.position_y) ∧
      s'.robot_goal_ = s.robot_goal_ ∧
      s'.dataset_ = s.dataset_ ++ new ∧
      new.drop 1 =
        (if accepts s = true then
          (rest.filter (fun p =>
            decide (max (|robot.position_x - p.position_x| - s.local_width_ / 2)
              (|robot.position_y - p.position_y| - s.local_height_ / 2) ≤ -0.00001))).map
            (personRow s)
        else []) ∧
      ∀ pos : α × α,
        callbackTrackedPersons L { s with robot_position_ := pos } (robot :: rest) =
          some s' := by
  rw [callbackTrackedPersons_cons]
  have hfilter : ∀ pos : α × α, (fun (p : TrackedPerson α) =>
      inLocalZone { ({ s with robot_position_ := pos }) with
        robot_position_ := (robot.position_x, robot.position_y) }
        (p.position_x, p.position_y)) =
      (fun p => decide (max (|robot.position_x - p.position_x| - s.local_width_ / 2)
        (|robot.position_y - p.position_y| - s.local_height_ / 2) ≤ -0.00001)) := by
    intro pos
    funext p
    simp [inLocalZone]
  by_cases h : accepts s = true
  · rw [if_pos h]
    refine ⟨_, _, rfl, rfl, rfl, rfl, ?_, ?_⟩
    · rw [if_pos h, List.drop_succ_cons, List.drop_zero]
      have := hfilter s.robot_position_
      simp only at this
      rw [← this]
    · intro pos
      have hp : accepts { s with robot_position_ := pos } = true := h
      rw [callbackTrackedPersons_cons, if_pos hp]
      have h1 := hfilter pos
      have h2 := hfilter s.robot_position_
      simp only at h1 h2
      simp only [h1, h2]
      rfl
  · rw [if_neg h]
    refine ⟨_, [], rfl, rfl, rfl, by simp, ?_, ?_⟩
    · rw [if_neg h]
      rfl
    · intro pos
      have hp : ¬ accepts { s with robot_position_ := pos } = true := h
      rw [callbackTrackedPersons_cons, if_neg hp]

/-! ## The loop of `run` and the text of a record -/

/-- C15, as stated, fails: with target size 2 and the goal set, one accepted
batch of the robot and one person inside the local zone has written 2 rows, as
many as the target size, and the test of the `while` is still true (the
counter is 1). -/
theorem run_continues_with_rows_at_size :
    ∃ s', callbackTrackedPersons realLibm { (sampleState : State ℝ) with size_ := 2 }
        [sampleRobot, samplePerson] = some s' ∧
      s'.dataset_.length = 2 ∧ s'.size_ = 2 ∧ s'.counter_ = 1 ∧
      runContinues true s' = true := by
  have hacc : accepts { (sampleState : State ℝ) with size_ := 2 } = true :=
    accepts_sampleState
  have hz : inLocalZone
      { ({ (sampleState : State ℝ) with size_ := 2 }) with
        robot_position_ := ((sampleRobot : TrackedPerson ℝ).position_x,
          (sampleRobot : TrackedPerson ℝ).position_y) }
      ((samplePerson : TrackedPerson ℝ).position_x,
        (samplePerson : TrackedPerson ℝ).position_y) = true := by
    simp only [inLocalZone, sampleState, callbackRobotGoal, initDefault, init, sampleRobot,
      samplePerson]
    norm_num
  rw [callbackTrackedPersons_cons, if_pos hacc]
  refine ⟨_, rfl, ?_, rfl, rfl, ?_⟩
  · simp only [List.filter, hz, List.map, List.length_append, List.length_cons,
      List.length_nil]
    rfl
  · simp only [runContinues, sampleState, callbackRobotGoal, initDefault, init]
    norm_num

/-- C15, amended: while fewer than 2147483648 batches have been accepted (the
range of the `int` counter), the test of the `while` is false exactly when
`ros::ok()` is false or the counter, which is the number of accepted batches
and not the number of rows written, has reached `size_`; the loop is then left
without a further callback, and otherwise the inputs of the iteration are
delivered.  Each accepted batch wrote at least one row. -/
theorem run_stops_on_counter (L : Libm α) (lw lh gw gh size : α) (flip : Int)
    (evs : List (Event α)) (ok : Bool) (hne : ∀ ev ∈ evs, ev ≠ Event.tracked [])
    (hbound : countAccepted L (init lw lh gw gh size flip) evs < 2147483648) :
    ∃ sN, deliver32 L (init lw lh gw gh size flip) evs = some sN ∧
      (runContinues ok sN = false ↔
        (ok = false ∨ size ≤ (countAccepted L (init lw lh gw gh size flip) evs : α))) ∧
      countAccepted L (init lw lh gw gh size flip) evs ≤ sN.dataset_.length ∧
      ∀ (evs2 : List (Event α)) (more : List (Bool × List (Event α))),
        run32 L sN ((ok, evs2) :: more) =
          if ok = false ∨ size ≤ (countAccepted L (init lw lh gw gh size flip) evs : α) then
            some (sN, true)
          else (deliver32 L sN evs2).bind (fun s => run32 L s more) := by
  obtain ⟨sN, hN, hcN⟩ := deliver_counter L evs (init lw lh gw gh size flip) hne
  obtain ⟨hsize, hrows⟩ := deliver_size_rows L evs _ sN hN
  have hz : (init lw lh gw gh size flip).counter_ = 0 := rfl
  have h32 := deliver32_eq L evs (init lw lh gw gh size flip) (le_of_eq hz.symm)
    (by rw [hz]; omega)
  have hc : (sN.counter_ : α) = (countAccepted L (init lw lh gw gh size flip) evs : α) := by
    rw [hcN]
    simp [init]
  have hs : sN.size_ = size := hsize
  have hiff : runContinues ok sN = false ↔
      (ok = false ∨ size ≤ (countAccepted L (init lw lh gw gh size flip) evs : α)) := by
    simp only [runContinues, hc, hs, Bool.and_eq_false_iff, decide_eq_false_iff_not, not_lt]
  refine ⟨sN, h32.trans hN, hiff, by simpa [init] using hrows, ?_⟩
  intro evs2 more
  by_cases hstop : ok = false ∨ size ≤ (countAccepted L (init lw lh gw gh size flip) evs : α)
  · have h1 := hiff.mpr hstop
    simp only [run32, h1, if_pos hstop]
    simp
  · have h1 : runContinues ok sN = true := by
      cases hrc : runContinues ok sN with
      | true => rfl
      | false => exact absurd (hiff.mp hrc) hstop
    simp only [run32, h1, if_neg hstop, if_true]

/-- C15, amended, at a concrete input: the default parameters over the reals
and the inputs batch, goal (3, 3), batch. -/
theorem run_stops_on_counter_witness :
    ((∀ ev ∈ [Event.tracked [(sampleRobot : TrackedPerson ℝ)], Event.goal 3 3,
        Event.tracked [sampleRobot, samplePerson]], ev ≠ Event.tracked []) ∧
      countAccepted realLibm (init (12 : ℝ) 12 50 50 100 1)
        [Event.tracked [sampleRobot], Event.goal 3 3,
          Event.tracked [sampleRobot, samplePerson]] < 2147483648) ∧
    ∃ sN, deliver32 realLibm (init (12 : ℝ) 12 50 50 100 1)
        [Event.tracked [sampleRobot], Event.goal 3 3,
          Event.tracked [sampleRobot, samplePerson]] = some sN ∧
      (runContinues true sN = false ↔
        (true = false ∨ (100 : ℝ) ≤ (countAccepted realLibm (init (12 : ℝ) 12 50 50 100 1)
          [Event.tracked [sampleRobot], Event.goal 3 3,
            Event.tracked [sampleRobot, samplePerson]] : ℝ))) ∧
      countAccepted realLibm (init (12 : ℝ) 12 50 50 100 1)
          [Event.tracked [sampleRobot], Event.goal 3 3,
            Event.tracked [sampleRobot, samplePerson]] ≤ sN.dataset_.length ∧
      ∀ (evs2 : List (Event ℝ)) (more : List (Bool × List (Event ℝ))),
        run32 realLibm sN ((true, evs2) :: more) =
          if true = false ∨ (100 : ℝ) ≤ (countAccepted realLibm
              (init (12 : ℝ) 12 50 50 100 1)
              [Event.tracked [sampleRobot], Event.goal 3 3,
                Event.tracked [sampleRobot, samplePerson]] : ℝ) then
            some (sN, true)
          else (deliver32 realLibm sN evs2).bind (fun s => run32 realLibm s more) :=
  have hne : ∀ ev ∈ [Event.tracked [(sampleRobot : TrackedPerson ℝ)], Event.goal 3 3,
      Event.tracked [sampleRobot, samplePerson]], ev ≠ Event.tracked [] := by
    intro ev hev
    simp only [List.mem_cons, List.mem_singleton, List.not_mem_nil, or_false] at hev
    rcases hev with rfl | rfl | rfl <;> simp
  have hbound : countAccepted realLibm (init (12 : ℝ) 12 50 50 100 1)
      [Event.tracked [sampleRobot], Event.goal 3 3,
        Event.tracked [sampleRobot, samplePerson]] < 2147483648 :=
    lt_of_le_of_lt (countAccepted_le_length realLibm _ _) (by norm_num)
  ⟨⟨hne, hbound⟩, run_stops_on_counter realLibm 12 12 50 50 100 1 _ true hne hbound⟩

/-- C16, as stated, fails: the record written for `sampleRobot` alone after
the goal update ends with goal_y, a comma and then `std::endl`, so it is not
the ten fields separated by single commas and followed directly by the
terminator. -/
theorem record_has_trailing_comma :
    ∃ s', callbackTrackedPersons realLibm (sampleState : State ℝ) [sampleRobot] = some s' ∧
      written s' =
        [.int 0, .comma, .ident 1, .comma, .num (-24 / 25), .comma, .num (-24 / 25), .comma,
         .num (12 / 1000), .comma, .num (-12), .comma, .num 0, .comma, .num 1, .comma,
         .num (-22 / 25), .comma, .num (-22 / 25), .comma, .endl] ∧
      written s' ≠
        [.int 0, .comma, .ident 1, .comma, .num (-24 / 25), .comma, .num (-24 / 25), .comma,
         .num (12 / 1000), .comma, .num (-12), .comma, .num 0, .comma, .num 1, .comma,
         .num (-22 / 25), .comma, .num (-22 / 25), .endl] := by
  rw [callbackTrackedPersons_cons, if_pos accepts_sampleState]
  have hw : written
      { (sampleState : State ℝ) with
        robot_position_ := ((sampleRobot : TrackedPerson ℝ).position_x,
          (sampleRobot : TrackedPerson ℝ).position_y)
        counter_ := (sampleState : State ℝ).counter_ + 1
        dataset_ := (sampleState : State ℝ).dataset_ ++
          egoRow sampleState sampleRobot
            (flipSwitch realLibm (sampleState : State ℝ).flip_
              (realLibm.atan2 (sampleRobot : TrackedPerson ℝ).orientation_z
                (sampleRobot : TrackedPerson ℝ).orientation_w)
              (egoBefore sampleState sampleRobot)) ::
          (List.filter (fun p => inLocalZone
            { (sampleState : State ℝ) with
              robot_position_ := ((sampleRobot : TrackedPerson ℝ).position_x,
                (sampleRobot : TrackedPerson ℝ).position_y) }
            (p.position_x, p.position_y)) []).map (personRow sampleState) } =
      [.int 0, .comma, .ident 1, .comma, .num (-24 / 25), .comma, .num (-24 / 25), .comma,
       .num (12 / 1000), .comma, .num (-12), .comma, .num 0, .comma, .num 1, .comma,
       .num (-22 / 25), .comma, .num (-22 / 25), .comma, .endl] := by
    simp only [written, sampleState, callbackRobotGoal, initDefault, init, sampleRobot,
      egoRow, egoBefore, flipSwitch, List.filter, List.map, List.nil_append,
      List.flatMap_cons, List.flatMap_nil, List.append_nil, insertRecord]
    norm_num
  refine ⟨_, rfl, hw, ?_⟩
  rw [hw]
  intro h
  have hlen := congrArg List.length h
  simp at hlen

/-- C16, amended: every record written by a batch, for the robot and for each
other person alike, consists of the ten fields frame, id (which is
`track_id + 1`), pos_y, pos_x, vel_x, vel_y, quat_z, quat_w, goal_x, goal_y in
that order, each of them, goal_y included, followed by one comma, and then the
record terminator; the records follow those already written. -/
theorem record_layout (L : Libm α) (s : State α) (robot : TrackedPerson α)
    (rest : List (TrackedPerson α)) :
    ∃ (s' : State α) (new : List (Row α)),
      callbackTrackedPersons L s (robot :: rest) = some s' ∧
      s'.dataset_ = s.dataset_ ++ new ∧
      written s' = written s ++
        new.flatMap (fun r =>
          List.flatMap
            [Token.int r.frame, Token.ident r.ped, Token.num r.pos_y, Token.num r.pos_x,
              Token.num r.twist_x, Token.num r.twist_y, Token.num r.or_z, Token.num r.or_w,
              Token.num r.goal_x, Token.num r.goal_y]
            (fun field => [field, Token.comma]) ++ [Token.endl]) ∧
      new.map (fun r => r.ped) =
        (if accepts s = true then
          (robot.track_id + 1) ::
            (rest.filter (fun p => inLocalZone s' (p.position_x, p.position_y))).map
              (fun p => p.track_id + 1)
        else []) := by
  have hrec : (fun (r : Row α) =>
      List.flatMap
        [Token.int r.frame, Token.ident r.ped, Token.num r.pos_y, Token.num r.pos_x,
          Token.num r.twist_x, Token.num r.twist_y, Token.num r.or_z, Token.num r.or_w,
          Token.num r.goal_x, Token.num r.goal_y]
        (fun field => [field, Token.comma]) ++ [Token.endl]) = insertRecord := by
    funext r
    simp [insertRecord, List.flatMap_cons]
  rw [callbackTrackedPersons_cons, hrec]
  by_cases h : accepts s = true
  · simp only [if_pos h]
    refine ⟨_, _, rfl, rfl, ?_, ?_⟩
    · simp only [written, List.flatMap_append]
    · simp only [List.map_cons, List.map_map]
      rfl
  · simp only [if_neg h]
    refine ⟨_, [], rfl, by simp, ?_, rfl⟩
    simp [written]

/-! ## Ranges and the orientation -/

/-- C19: for positive global extents and a raw robot position with
`0 <= x <= width` and `0 <= y <= height`, the position fields of the robot row
of an accepted batch lie in [-1, 1] under profile 1, whereas under profile 3
they are `2 - 2 * x / width` and `2 - 2 * y / height`, lie in [0, 2], and are
above 1 whenever the raw coordinate is below half its extent. -/
theorem ego_position_range (L : Libm α) (s : State α) (robot : TrackedPerson α)
    (rest : List (TrackedPerson α))
    (hW : 0 < s.global_width_) (hH : 0 < s.global_height_)
    (hx0 : 0 ≤ robot.position_x) (hx1 : robot.position_x ≤ s.global_width_)
    (hy0 : 0 ≤ robot.position_y) (hy1 : robot.position_y ≤ s.global_height_)
    (h : accepts s = true) :
    ∃ (s' : State α) (ego : Row α) (others : List (Row α)),
      callbackTrackedPersons L s (robot :: rest) = some s' ∧
      s'.dataset_ = s.dataset_ ++ ego :: others ∧
      (s.flip_ = 1 →
        (-1 ≤ ego.pos_x ∧ ego.pos_x ≤ 1) ∧ (-1 ≤ ego.pos_y ∧ ego.pos_y ≤ 1)) ∧
      (s.flip_ = 3 →
        ego.pos_x = 2 - 2 * robot.position_x / s.global_width_ ∧
        ego.pos_y = 2 - 2 * robot.position_y / s.global_height_ ∧
        (0 ≤ ego.pos_x ∧ ego.pos_x ≤ 2) ∧ (0 ≤ ego.pos_y ∧ ego.pos_y ≤ 2) ∧
        (robot.position_x < s.global_width_ / 2 → 1 < ego.pos_x) ∧
        (robot.position_y < s.global_height_ / 2 → 1 < ego.pos_y)) := by
  obtain ⟨hxa, hxb, hxc⟩ := normalized_bounds robot.position_x s.global_width_ hW hx0 hx1
  obtain ⟨hya, hyb, hyc⟩ := normalized_bounds robot.position_y s.global_height_ hH hy0 hy1
  rw [callbackTrackedPersons_cons, if_pos h]
  refine ⟨_, _, _, rfl, rfl, ?_, ?_⟩
  · intro hf
    simp only [hf, flipSwitch_one, egoRow, egoBefore]
    refine ⟨⟨?_, ?_⟩, ⟨?_, ?_⟩⟩ <;> linarith
  · intro hf
    simp only [hf, flipSwitch_three, egoRow, egoBefore]
    refine ⟨by ring, by ring, ⟨?_, ?_⟩, ⟨?_, ?_⟩, ?_, ?_⟩
    · linarith
    · linarith
    · linarith
    · linarith
    · intro hp
      have := hxc hp
      linarith
    · intro hp
      have := hyc hp
      linarith

/-- C19 at a concrete input: over the reals, `sampleState` with profile 3 and
`sampleRobot` at (1, 1) in the 50 x 50 extents. -/
theorem ego_position_range_witness :
    (0 < ({ (sampleState : State ℝ) with flip_ := 3 } : State ℝ).global_width_ ∧
      0 < ({ (sampleState : State ℝ) with flip_ := 3 } : State ℝ).global_height_ ∧
      0 ≤ (sampleRobot : TrackedPerson ℝ).position_x ∧
      (sampleRobot : TrackedPerson ℝ).position_x ≤
        ({ (sampleState : State ℝ) with flip_ := 3 } : State ℝ).global_width_ ∧
      0 ≤ (sampleRobot : TrackedPerson ℝ).position_y ∧
      (sampleRobot : TrackedPerson ℝ).position_y ≤
        ({ (sampleState : State ℝ) with flip_ := 3 } : State ℝ).global_height_ ∧
      accepts ({ (sampleState : State ℝ) with flip_ := 3 } : State ℝ) = true) ∧
    ∃ (s' : State ℝ) (ego : Row ℝ) (others : List (Row ℝ)),
      callbackTrackedPersons realLibm { (sampleState : State ℝ) with flip_ := 3 }
        (sampleRobot :: [samplePerson]) = some s' ∧
      s'.dataset_ = ({ (sampleState : State ℝ) with flip_ := 3 } : State ℝ).dataset_ ++
        ego :: others ∧
      (({ (sampleState : State ℝ) with flip_ := 3 } : State ℝ).flip_ = 1 →
        (-1 ≤ ego.pos_x ∧ ego.pos_x ≤ 1) ∧ (-1 ≤ ego.pos_y ∧ ego.pos_y ≤ 1)) ∧
      (({ (sampleState : State ℝ) with flip_ := 3 } : State ℝ).flip_ = 3 →
        ego.pos_x = 2 - 2 * (sampleRobot : TrackedPerson ℝ).position_x /
          ({ (sampleState : State ℝ) with flip_ := 3 } : State ℝ).global_width_ ∧
        ego.pos_y = 2 - 2 * (sampleRobot : TrackedPerson ℝ).position_y /
          ({ (sampleState : State ℝ) with flip_ := 3 } : State ℝ).global_height_ ∧
        (0 ≤ ego.pos_x ∧ ego.pos_x ≤ 2) ∧ (0 ≤ ego.pos_y ∧ ego.pos_y ≤ 2) ∧
        ((sampleRobot : TrackedPerson ℝ).position_x <
          ({ (sampleState : State ℝ) with flip_ := 3 } : State ℝ).global_width_ / 2 →
          1 < ego.pos_x) ∧
        ((sampleRobot : TrackedPerson ℝ).position_y <
          ({ (sampleState : State ℝ) with flip_ := 3 } : State ℝ).global_height_ / 2 →
          1 < ego.pos_y)) :=
  have hW : 0 < ({ (sampleState : State ℝ) with flip_ := 3 } : State ℝ).global_width_ := by
    simp only [sampleState, callbackRobotGoal, initDefault, init]
    norm_num
  have hH : 0 < ({ (sampleState : State ℝ) with flip_ := 3 } : State ℝ).global_height_ := by
    simp only [sampleState, callbackRobotGoal, initDefault, init]
    norm_num
  have hx0 : 0 ≤ (sampleRobot : TrackedPerson ℝ).position_x := by
    simp only [sampleRobot]
    norm_num
  have hx1 : (sampleRobot : TrackedPerson ℝ).position_x ≤
      ({ (sampleState : State ℝ) with flip_ := 3 } : State ℝ).global_width_ := by
    simp only [sampleRobot, sampleState, callbackRobotGoal, initDefault, init]
    norm_num
  have hy0 : 0 ≤ (sampleRobot : TrackedPerson ℝ).position_y := by
    simp only [sampleRobot]
    norm_num
  have hy1 : (sampleRobot : TrackedPerson ℝ).position_y ≤
      ({ (sampleState : State ℝ) with flip_ := 3 } : State ℝ).global_height_ := by
    simp only [sampleRobot, sampleState, callbackRobotGoal, initDefault, init]
    norm_num
  have hacc : accepts ({ (sampleState : State ℝ) with flip_ := 3 } : State ℝ) = true :=
    accepts_sampleState
  ⟨⟨hW, hH, hx0, hx1, hy0, hy1, hacc⟩,
    ego_position_range realLibm { (sampleState : State ℝ) with flip_ := 3 } sampleRobot
      [samplePerson] hW hH hx0 hx1 hy0 hy1 hacc⟩

/-- C17: over the reals, with `angle = atan2 (quat_z, quat_w)` of the robot,
the robot row of an accepted batch carries the input `(quat_z, quat_w)`
unchanged under profile 1 and `(sin (angle + d), cos (angle + d))` with
`d = pi / 4` under profile 2, `d = pi / 2` under profile 3 and `d = -pi / 4`
under profile 4; in these three cases the emitted pair has unit norm whatever
the input. -/
theorem ego_orientation (s : State ℝ) (robot : TrackedPerson ℝ)
    (rest : List (TrackedPerson ℝ)) (h : accepts s = true) :
    ∃ (s' : State ℝ) (ego : Row ℝ) (others : List (Row ℝ)),
      callbackTrackedPersons realLibm s (robot :: rest) = some s' ∧
      s'.dataset_ = s.dataset_ ++ ego :: others ∧
      (s.flip_ = 1 → ego.or_z = robot.orientation_z ∧ ego.or_w = robot.orientation_w) ∧
      (s.flip_ = 2 →
        ego.or_z = Real.sin
          (Complex.arg ⟨robot.orientation_w, robot.orientation_z⟩ + Real.pi / 4) ∧
        ego.or_w = Real.cos
          (Complex.arg ⟨robot.orientation_w, robot.orientation_z⟩ + Real.pi / 4) ∧
        ego.or_z ^ 2 + ego.or_w ^ 2 = 1) ∧
      (s.flip_ = 3 →
        ego.or_z = Real.sin
          (Complex.arg ⟨robot.orientation_w, robot.orientation_z⟩ + Real.pi / 2) ∧
        ego.or_w = Real.cos
          (Complex.arg ⟨robot.orientation_w, robot.orientation_z⟩ + Real.pi / 2) ∧
        ego.or_z ^ 2 + ego.or_w ^ 2 = 1) ∧
      (s.flip_ = 4 →
        ego.or_z = Real.sin
          (Complex.arg ⟨robot.orientation_w, robot.orientation_z⟩ + -(Real.pi / 4)) ∧
        ego.or_w = Real.cos
          (Complex.arg ⟨robot.orientation_w, robot.orientation_z⟩ + -(Real.pi / 4)) ∧
        ego.or_z ^ 2 + ego.or_w ^ 2 = 1) := by
  rw [callbackTrackedPersons_cons, if_pos h]
  refine ⟨_, _, _, rfl, rfl, ?_, ?_, ?_, ?_⟩
  · intro hf
    simp only [hf, flipSwitch_one, egoRow, egoBefore, and_self]
  · intro hf
    simp only [hf, flipSwitch_two, egoRow, realLibm]
    exact ⟨trivial, trivial, Real.sin_sq_add_cos_sq _⟩
  · intro hf
    simp only [hf, flipSwitch_three, egoRow, realLibm]
    exact ⟨trivial, trivial, Real.sin_sq_add_cos_sq _⟩
  · intro hf
    simp only [hf, flipSwitch_four, egoRow, realLibm, sub_eq_add_neg]
    exact ⟨trivial, trivial, Real.sin_sq_add_cos_sq _⟩

/-- C17 at a concrete input: `sampleState` with profile 2, `sampleRobot` and
`samplePerson`. -/
theorem ego_orientation_witness :
    accepts ({ (sampleState : State ℝ) with flip_ := 2 } : State ℝ) = true ∧
    ∃ (s' : State ℝ) (ego : Row ℝ) (others : List (Row ℝ)),
      callbackTrackedPersons realLibm { (sampleState : State ℝ) with flip_ := 2 }
        (sampleRobot :: [samplePerson]) = some s' ∧
      s'.dataset_ = ({ (sampleState : State ℝ) with flip_ := 2 } : State ℝ).dataset_ ++
        ego :: others ∧
      (({ (sampleState : State ℝ) with flip_ := 2 } : State ℝ).flip_ = 1 →
        ego.or_z = (sampleRobot : TrackedPerson ℝ).orientation_z ∧
        ego.or_w = (sampleRobot : TrackedPerson ℝ).orientation_w) ∧
      (({ (sampleState : State ℝ) with flip_ := 2 } : State ℝ).flip_ = 2 →
        ego.or_z = Real.sin
          (Complex.arg ⟨(sampleRobot : TrackedPerson ℝ).orientation_w,
            (sampleRobot : TrackedPerson ℝ).orientation_z⟩ + Real.pi / 4) ∧
        ego.or_w = Real.cos
          (Complex.arg ⟨(sampleRobot : TrackedPerson ℝ).orientation_w,
            (sampleRobot : TrackedPerson ℝ).orientation_z⟩ + Real.pi / 4) ∧
        ego.or_z ^ 2 + ego.or_w ^ 2 = 1) ∧
      (({ (sampleState : State ℝ) with flip_ := 2 } : State ℝ).flip_ = 3 →
        ego.or_z = Real.sin
          (Complex.arg ⟨(sampleRobot : TrackedPerson ℝ).orientation_w,
            (sampleRobot : TrackedPerson ℝ).orientation_z⟩ + Real.pi / 2) ∧
        ego.or_w = Real.cos
          (Complex.arg ⟨(sampleRobot : TrackedPerson ℝ).orientation_w,
            (sampleRobot : TrackedPerson ℝ).orientation_z⟩ + Real.pi / 2) ∧
        ego.or_z ^ 2 + ego.or_w ^ 2 = 1) ∧
      (({ (sampleState : State ℝ) with flip_ := 2 } : State ℝ).flip_ = 4 →
        ego.or_z = Real.sin
          (Complex.arg ⟨(sampleRobot : TrackedPerson ℝ).orientation_w,
            (sampleRobot : TrackedPerson ℝ).orientation_z⟩ + -(Real.pi / 4)) ∧
        ego.or_w = Real.cos
          (Complex.arg ⟨(sampleRobot : TrackedPerson ℝ).orientation_w,
            (sampleRobot : TrackedPerson ℝ).orientation_z⟩ + -(Real.pi / 4)) ∧
        ego.or_z ^ 2 + ego.or_w ^ 2 = 1) :=
  have hacc : accepts ({ (sampleState : State ℝ) with flip_ := 2 } : State ℝ) = true :=
    accepts_sampleState
  ⟨hacc, ego_orientation { (sampleState : State ℝ) with flip_ := 2 } sampleRobot
    [samplePerson] hacc⟩

/-- C11, on the code: for a unit input `(quat_z, quat_w) = (sin a, cos a)` the
heading `(cos 2a', sin 2a') = (quat_w ^ 2 - quat_z ^ 2, 2 * quat_z * quat_w)`
of the pair left by the `switch` is `(cos 2a, sin 2a)` under profile 1 and
`(-cos 2a, -sin 2a)` under profile 3, the images under the linear part of the
position map; but it is `(-sin 2a, cos 2a)` under profile 2 and
`(sin 2a, -cos 2a)` under profile 4, the opposites of the images
`(sin 2a, -cos 2a)` under `(x, y) -> (y, -x)` and `(-sin 2a, cos 2a)` under
`(x, y) -> (-y, x)`, and never equal to them. -/
theorem heading_after_flip (a : ℝ) (e : Ego ℝ) :
    (((flipSwitch realLibm 1 (realLibm.atan2 (Real.sin a) (Real.cos a))
          { e with quat_z := Real.sin a, quat_w := Real.cos a }).quat_w ^ 2 -
        (flipSwitch realLibm 1 (realLibm.atan2 (Real.sin a) (Real.cos a))
          { e with quat_z := Real.sin a, quat_w := Real.cos a }).quat_z ^ 2,
      2 * (flipSwitch realLibm 1 (realLibm.atan2 (Real.sin a) (Real.cos a))
          { e with quat_z := Real.sin a, quat_w := Real.cos a }).quat_z *
        (flipSwitch realLibm 1 (realLibm.atan2 (Real.sin a) (Real.cos a))
          { e with quat_z := Real.sin a, quat_w := Real.cos a }).quat_w) =
      (Real.cos (2 * a), Real.sin (2 * a))) ∧
    (((flipSwitch realLibm 3 (realLibm.atan2 (Real.sin a) (Real.cos a))
          { e with quat_z := Real.sin a, quat_w := Real.cos a }).quat_w ^ 2 -
        (flipSwitch realLibm 3 (realLibm.atan2 (Real.sin a) (Real.cos a))
          { e with quat_z := Real.sin a, quat_w := Real.cos a }).quat_z ^ 2,
      2 * (flipSwitch realLibm 3 (realLibm.atan2 (Real.sin a) (Real.cos a))
          { e with quat_z := Real.sin a, quat_w := Real.cos a }).quat_z *
        (flipSwitch realLibm 3 (realLibm.atan2 (Real.sin a) (Real.cos a))
          { e with quat_z := Real.sin a, quat_w := Real.cos a }).quat_w) =
      (-Real.cos (2 * a), -Real.sin (2 * a))) ∧
    (((flipSwitch realLibm 2 (realLibm.atan2 (Real.sin a) (Real.cos a))
          { e with quat_z := Real.sin a, quat_w := Real.cos a }).quat_w ^ 2 -
        (flipSwitch realLibm 2 (realLibm.atan2 (Real.sin a) (Real.cos a))
          { e with quat_z := Real.sin a, quat_w := Real.cos a }).quat_z ^ 2,
      2 * (flipSwitch realLibm 2 (realLibm.atan2 (Real.sin a) (Real.cos a))
          { e with quat_z := Real.sin a, quat_w := Real.cos a }).quat_z *
        (flipSwitch realLibm 2 (realLibm.atan2 (Real.sin a) (Real.cos a))
          { e with quat_z := Real.sin a, quat_w := Real.cos a }).quat_w) =
      (-Real.sin (2 * a), Real.cos (2 * a))) ∧
    (-Real.sin (2 * a), Real.cos (2 * a)) ≠ (Real.sin (2 * a), -Real.cos (2 * a)) ∧
    (((flipSwitch realLibm 4 (realLibm.atan2 (Real.sin a) (Real.cos a))
          { e with quat_z := Real.sin a, quat_w := Real.cos a }).quat_w ^ 2 -
        (flipSwitch realLibm 4 (realLibm.atan2 (Real.sin a) (Real.cos a))
          { e with quat_z := Real.sin a, quat_w := Real.cos a }).quat_z ^ 2,
      2 * (flipSwitch realLibm 4 (realLibm.atan2 (Real.sin a) (Real.cos a))
          { e with quat_z := Real.sin a, quat_w := Real.cos a }).quat_z *
        (flipSwitch realLibm 4 (realLibm.atan2 (Real.sin a) (Real.cos a))
          { e with quat_z := Real.sin a, quat_w := Real.cos a }).quat_w) =
      (Real.sin (2 * a), -Real.cos (2 * a))) ∧
    (Real.sin (2 * a), -Real.cos (2 * a)) ≠ (-Real.sin (2 * a), Real.cos (2 * a)) := by
  have hs := sin_two_atan2_unit a
  have hc := cos_two_atan2_unit a
  have hunit := Real.sin_sq_add_cos_sq (2 * a)
  have hpi4 : realLibm.M_PI_4 = Real.pi / 4 := rfl
  have hpi2 : realLibm.M_PI_2 = Real.pi / 2 := rfl
  have hsin : realLibm.sin = Real.sin := rfl
  have hcos : realLibm.cos = Real.cos := rfl
  refine ⟨?_, ?_, ?_, ?_, ?_, ?_⟩
  · simp only [flipSwitch_one, cos_sq_sub_sin_sq_eq, two_sin_cos_eq]
  · simp only [flipSwitch_three, hpi2, hsin, hcos, cos_sq_sub_sin_sq_eq, two_sin_cos_eq]
    rw [show 2 * (realLibm.atan2 (Real.sin a) (Real.cos a) + Real.pi / 2) =
      2 * realLibm.atan2 (Real.sin a) (Real.cos a) + Real.pi by ring,
      Real.cos_add_pi, Real.sin_add_pi, hs, hc]
  · simp only [flipSwitch_two, hpi4, hsin, hcos, cos_sq_sub_sin_sq_eq, two_sin_cos_eq]
    rw [show 2 * (realLibm.atan2 (Real.sin a) (Real.cos a) + Real.pi / 4) =
      2 * realLibm.atan2 (Real.sin a) (Real.cos a) + Real.pi / 2 by ring,
      Real.cos_add_pi_div_two, Real.sin_add_pi_div_two, hs, hc]
  · intro heq
    have h1 := congrArg Prod.fst heq
    have h2 := congrArg Prod.snd heq
    simp only at h1 h2
    have hs0 : Real.sin (2 * a) = 0 := by linarith
    have hc0 : Real.cos (2 * a) = 0 := by linarith
    rw [hs0, hc0] at hunit
    norm_num at hunit
  · simp only [flipSwitch_four, hpi4, hsin, hcos, cos_sq_sub_sin_sq_eq, two_sin_cos_eq]
    rw [show 2 * (realLibm.atan2 (Real.sin a) (Real.cos a) - Real.pi / 4) =
      2 * realLibm.atan2 (Real.sin a) (Real.cos a) - Real.pi / 2 by ring,
      Real.cos_sub_pi_div_two, Real.sin_sub_pi_div_two, hs, hc]
  · intro heq
    have h1 := congrArg Prod.fst heq
    have h2 := congrArg Prod.snd heq
    simp only at h1 h2
    have hs0 : Real.sin (2 * a) = 0 := by linarith
    have hc0 : Real.cos (2 * a) = 0 := by linarith
    rw [hs0, hc0] at hunit
    norm_num at hunit

end Claims

end PedsimData
